import Mathlib

/-! ### Definitions -/

/-!
Verification development for the Alpha Vantage ingestion pipeline
(`src/ingestion/main.py`).

The script is shallowly embedded: decoded JSON bodies become the `Json`
type, the RuntimeError-based control flow of `_get` / `_with_retry`
becomes `Except String`-valued functions, and the side effects of a run
(API calls, sleeps, local writes, GCS uploads, GCS-client construction)
become an explicit event trace produced by a pure model of `main`.
-/
/-- Decoded JSON value, as produced by `r.json()` (via Python's `json`
module): `None`, booleans, numbers, strings, lists, and dicts (modelled
as association lists in insertion order; keys are unique in decoded
API responses). Numbers are modelled as integers; no claim depends on
numeric payload content. -/
inductive Json where
  | null
  | bool (b : Bool)
  | num (n : Int)
  | str (s : String)
  | arr (xs : List Json)
  | obj (fields : List (String × Json))

mutual
/-- Structural equality test on `Json` values (byte-for-byte equality of
the serialized payload, at the level of the decoded value). -/
def Json.beq : Json → Json → Bool
  | Json.null, Json.null => true
  | Json.bool a, Json.bool b => a == b
  | Json.num a, Json.num b => a == b
  | Json.str a, Json.str b => a == b
  | Json.arr as, Json.arr bs => beqList as bs
  | Json.obj as, Json.obj bs => beqFields as bs
  | _, _ => false

/-- Elementwise `Json.beq` on lists. -/
def beqList : List Json → List Json → Bool
  | [], [] => true
  | a :: as, b :: bs => Json.beq a b && beqList as bs
  | _, _ => false

/-- Entrywise `Json.beq` on dict fields. -/
def beqFields : List (String × Json) → List (String × Json) → Bool
  | [], [] => true
  | (ka, va) :: as, (kb, vb) :: bs => ka == kb && Json.beq va vb && beqFields as bs
  | _, _ => false
end

/-- Python dict key lookup on the association-list model:
`d[k]` / `k in d`. -/
def lookupStr : List (String × Json) → String → Option Json
  | [], _ => none
  | (k, v) :: rest, key => if k = key then some v else lookupStr rest key

mutual
/-- Python `repr` of a decoded JSON value (used by `str` on containers).
Strings are rendered with single quotes; Python's alternate-quote
heuristic for strings containing quotes is not reproduced (no claim
depends on it). -/
def Json.pyRepr : Json → String
  | Json.null => "None"
  | Json.bool b => if b then "True" else "False"
  | Json.num n => toString n
  | Json.str s => "\x27" ++ s ++ "\x27"
  | Json.arr xs => "[" ++ String.intercalate ", " (pyReprList xs) ++ "]"
  | Json.obj fs => "\x7b" ++ String.intercalate ", " (pyReprFields fs) ++ "\x7d"

/-- `repr` of each element of a Python list. -/
def pyReprList : List Json → List String
  | [] => []
  | x :: xs => Json.pyRepr x :: pyReprList xs

/-- `repr` of each `key: value` entry of a Python dict. -/
def pyReprFields : List (String × Json) → List String
  | [] => []
  | (k, v) :: fs => ("\x27" ++ k ++ "\x27: " ++ Json.pyRepr v) :: pyReprFields fs
end

/-- Python `str(...)` of a decoded JSON value: the string itself for
strings, `repr` otherwise (as in `str(data["Note"])` and the f-strings
of `_get`). -/
def Json.pyStr : Json → String
  | Json.str s => s
  | j => Json.pyRepr j

/-- `needle` is a prefix of `hay` (character lists). -/
def leadsList : List Char → List Char → Bool
  | [], _ => true
  | _ :: _, [] => false
  | a :: as, b :: bs => a == b && leadsList as bs

/-- `needle` occurs as a contiguous sublist of `hay`. -/
def subOccurs (needle : List Char) : List Char → Bool
  | [] => needle.isEmpty
  | c :: rest => leadsList needle (c :: rest) || subOccurs needle rest

/-- Python's `needle in hay` on strings: substring containment. -/
def strContains (hay needle : String) : Bool :=
  subOccurs needle.data hay.data

/-- Is `d` a Python dict (`isinstance(data, dict)`)? -/
def Json.isObj : Json → Bool
  | Json.obj _ => true
  | _ => false

/-- The JSON-signal handling of `_get` (src/ingestion/main.py lines
67-74), applied to the successfully decoded body `data`. The HTTP
transport (`requests.get`, `raise_for_status`) is out of scope: a
transport failure aborts the run before this code runs. A raised
`RuntimeError` is modelled as `Except.error` carrying the exception
message:

    if isinstance(data, dict):
        if "Note" in data and "Thank you" in str(data["Note"]):
            raise RuntimeError(f"Rate limited: {data['Note']}")
        if "Error Message" in data:
            raise RuntimeError(f"API error: {data['Error Message']}")
    return data
-/
def classify (data : Json) : Except String Json :=
  match data with
  | Json.obj fields =>
    match lookupStr fields "Note" with
    | some note =>
      if strContains (Json.pyStr note) "Thank you" then
        Except.error ("Rate limited: " ++ Json.pyStr note)
      else
        match lookupStr fields "Error Message" with
        | some em => Except.error ("API error: " ++ Json.pyStr em)
        | none => Except.ok data
    | none =>
      match lookupStr fields "Error Message" with
      | some em => Except.error ("API error: " ++ Json.pyStr em)
      | none => Except.ok data
  | d => Except.ok d

/-- A decoded body carries the provider throttle signal: it is a dict
with a "Note" key whose `str` contains "Thank you" (the condition of
`_get`'s first check). -/
def isRateLimitedSignal : Json → Bool
  | Json.obj fields =>
    match lookupStr fields "Note" with
    | some note => strContains (Json.pyStr note) "Thank you"
    | none => false
  | _ => false

/-! ## Rate-limit configuration and the retry wrapper -/
/-- `REQUESTS_PER_MINUTE_SAFE = 5` (src/ingestion/main.py line 39). -/
def REQUESTS_PER_MINUTE_SAFE : Nat := 5

/-- `SLEEP_SECONDS = int(60 / REQUESTS_PER_MINUTE_SAFE) + 1` (line 40).
Python's `int(...)` truncates the float quotient toward zero, which for
these positive values is `Nat` division. -/
def SLEEP_SECONDS : Nat := 60 / REQUESTS_PER_MINUTE_SAFE + 1

/-- `is_rate = "Rate limited" in msg or "Please consider" in msg`
(line 84): the retry wrapper detects a rate-limit condition by substring
inspection of the exception message. -/
def isRateMsg (msg : String) : Bool :=
  strContains msg "Rate limited" || strContains msg "Please consider"

/-- One observable step of `_with_retry`: invoking the wrapped callable,
or sleeping between attempts. -/
inductive RetryEvent where
  | invoke
  | sleep (secs : Nat)

/-- The loop body of `_with_retry` (lines 79-89). `f attempt` is the
result of the `attempt`-th invocation of the wrapped callable
(`Except.error` is a raised `RuntimeError`); `remaining` is
`retries - attempt`, so `attempt < retries` iff `remaining > 0`.
Returns the final outcome together with the trace of invocations and
sleeps, in order:

    for attempt in range(retries + 1):
        try:
            return fn(*args)
        except RuntimeError as e:
            msg = str(e)
            is_rate = "Rate limited" in msg or "Please consider" in msg
            if is_rate and attempt < retries:
                time.sleep(wait)
                continue
            raise
-/
def withRetryGo (f : Nat → Except String Json) (wait : Nat) :
    Nat → Nat → Except String Json × List RetryEvent
  | attempt, 0 =>
    match f attempt with
    | Except.ok v => (Except.ok v, [RetryEvent.invoke])
    | Except.error m => (Except.error m, [RetryEvent.invoke])
  | attempt, r + 1 =>
    match f attempt with
    | Except.ok v => (Except.ok v, [RetryEvent.invoke])
    | Except.error m =>
      if isRateMsg m then
        match withRetryGo f wait (attempt + 1) r with
        | (res, evs) => (res, RetryEvent.invoke :: RetryEvent.sleep wait :: evs)
      else (Except.error m, [RetryEvent.invoke])

/-- `_with_retry(fn, *args, retries, wait)` (lines 77-89), starting at
attempt 0 with `retries` retries still permitted. -/
def withRetry (f : Nat → Except String Json) (retries wait : Nat) :
    Except String Json × List RetryEvent :=
  withRetryGo f wait 0 retries

/-! ## Storage layout and the run model of `main` -/
/-- `%m` / `%d` of `strftime`: zero-padded two-digit field. -/
def pad2 (n : Nat) : String :=
  if n < 10 then "0" ++ toString n else toString n

/-- `%Y` of `strftime`: zero-padded four-digit year. -/
def pad4 (n : Nat) : String :=
  if n < 10 then "000" ++ toString n
  else if n < 100 then "00" ++ toString n
  else if n < 1000 then "0" ++ toString n
  else toString n

/-- `day_path = today.strftime("%Y/%m/%d")` (line 141), from the run's
UTC date. -/
def dayPath (y m d : Nat) : String :=
  pad4 y ++ "/" ++ pad2 m ++ "/" ++ pad2 d

/-- The path of the prices file relative to `LOCAL_RAW_DIR`:
`prices/<SYM>/YYYY/MM/DD/daily_adjusted.json` (line 149, 154). -/
def relPrices (sym day : String) : String :=
  "prices/" ++ sym ++ "/" ++ day ++ "/daily_adjusted.json"

/-- Python `str.lower()` on one ASCII character. -/
def lowerChar (c : Char) : Char :=
  if 'A' ≤ c ∧ c ≤ 'Z' then Char.ofNat (c.toNat + 32) else c

/-- Python `str.lower()` (the fundamentals function names are ASCII). -/
def lowerAscii (s : String) : String :=
  String.mk (s.data.map lowerChar)

/-- The path of a fundamentals file relative to `LOCAL_RAW_DIR`:
`fundamentals/<SYM>/YYYY/MM/DD/<fn.lower()>.json` (line 161, 166). -/
def relFund (sym day fn : String) : String :=
  "fundamentals/" ++ sym ++ "/" ++ day ++ "/" ++ lowerAscii fn ++ ".json"

/-- `str(gcs_key).replace("\\", "/")` (line 127): normalize path
separators to POSIX style. -/
def normSlash (s : String) : String :=
  String.mk (s.data.map (fun c => if c == '\\' then '/' else c))

/-- The suffix of `path` after the `root` prefix and its separator:
`out_path.relative_to(pathlib.Path(LOCAL_RAW_DIR))` (lines 154, 166) for
a path that was built as `root / rel`. -/
def relOfLocal (root path : String) : String :=
  String.mk (path.data.drop (root.data.length + 1))

/-- `FUND_FUNCS` (line 43). -/
def FUND_FUNCS : List String :=
  ["OVERVIEW", "INCOME_STATEMENT", "BALANCE_SHEET", "CASH_FLOW"]

/-- The run configuration read from the environment at startup (lines
28-35): `API_KEY`, `SYMBOLS`, `LOCAL_RAW_DIR`, `WRITE_TO_GCS`,
`GCS_BUCKET`. (`OUTPUTSIZE` only adds a constant query parameter to the
prices request and plays no role in any claim.) -/
structure Config where
  apiKey : String
  symbols : List String
  localRawDir : String
  writeToGcs : Bool
  gcsBucket : String

/-- One observable side effect of a run of `main`:
an outbound API request (`requests.get` inside `_get`), a
`time.sleep`, a local file write (`save_json`), construction of the
GCS storage client (`storage.Client()` inside `_get_storage_client`),
or an upload (`blob.upload_from_filename`). The upload event records
the bucket, the object key, the local source path and the bytes read
from that path. -/
inductive Event where
  | apiCall (fn sym : String)
  | sleep (secs : Nat)
  | localWrite (path : String) (payload : Json)
  | mkClient
  | upload (bucket key path : String) (content : Json)

/-- Rendering the trace of `_with_retry` into run events: each
invocation of the wrapped fetcher is one outbound API request. -/
def toEvent (fnName sym : String) : RetryEvent → Event
  | RetryEvent.invoke => Event.apiCall fnName sym
  | RetryEvent.sleep s => Event.sleep s

/-- The decoded response bodies of the external API for a run:
`body fn sym attempt` is the JSON body of the `attempt`-th request for
function `fn` and symbol `sym` (runs whose transport layer fails are out
of scope; they abort before classification). -/
abbrev Oracle := String → String → Nat → Json

/-- One invocation of a fetcher (`fetch_daily_adjusted` /
`fetch_fundamental`, lines 95-108): perform the GET and apply `_get`'s
signal classification to the decoded body. -/
def callAttempt (body : Oracle) (fn sym : String) (attempt : Nat) :
    Except String Json :=
  classify (body fn sym attempt)

/-- The local filesystem, written by `save_json`: most recent write
wins. `readFile` models `blob.upload_from_filename(str(local_path))`
reading the file's bytes (always present when `main` uploads). -/
def readFile (fs : List (String × Json)) (p : String) : Json :=
  (lookupStr fs p).getD Json.null

/-- Mutable process state of a run: whether the singleton
`_storage_client` has been constructed (line 46: `_storage_client`
starts as `None`), and the local files written so far. -/
structure RunState where
  clientMade : Bool
  fs : List (String × Json)

/-- `upload_to_gcs(local_path, gcs_key)` (lines 121-129): no-op unless
`WRITE_TO_GCS` and a bucket are configured; otherwise construct the
singleton client if it does not exist yet, then upload the local file's
bytes under the slash-normalized key:

    if not WRITE_TO_GCS or not GCS_BUCKET:
        return
    client = _get_storage_client()
    bucket = client.bucket(GCS_BUCKET)
    blob = bucket.blob(str(gcs_key).replace("\\", "/"))
    blob.upload_from_filename(str(local_path))
-/
def upload_to_gcs (cfg : Config) (fs : List (String × Json))
    (clientMade : Bool) (localPath gcsKey : String) : Bool × List Event :=
  if cfg.writeToGcs = false ∨ cfg.gcsBucket = "" then (clientMade, [])
  else if clientMade then
    (true, [Event.upload cfg.gcsBucket (normSlash gcsKey) localPath
              (readFile fs localPath)])
  else
    (true, [Event.mkClient,
            Event.upload cfg.gcsBucket (normSlash gcsKey) localPath
              (readFile fs localPath)])

/-- The inner fundamentals loop of `main` (lines 158-171): for each
function in `FUND_FUNCS`, fetch with one retry, `save_json` under
`fundamentals/...`, mirror to GCS, then sleep `SLEEP_SECONDS`. A raised
error aborts the run with the events emitted so far. -/
def fundLoop (cfg : Config) (body : Oracle) (day sym : String) :
    RunState → List String → RunState × Except String Unit × List Event
  | st, [] => (st, Except.ok (), [])
  | st, fn :: rest =>
    match withRetry (callAttempt body fn sym) 1 SLEEP_SECONDS with
    | (res, revs) =>
      match res with
      | Except.error m => (st, Except.error m, revs.map (toEvent fn sym))
      | Except.ok payload =>
        match upload_to_gcs cfg ((cfg.localRawDir ++ "/" ++ relFund sym day fn, payload) :: st.fs)
            st.clientMade (cfg.localRawDir ++ "/" ++ relFund sym day fn)
            ("raw/" ++ relFund sym day fn) with
        | (made2, upEvs) =>
          match fundLoop cfg body day sym
              ⟨made2, (cfg.localRawDir ++ "/" ++ relFund sym day fn, payload) :: st.fs⟩ rest with
          | (st3, resRest, evsRest) =>
            (st3, resRest,
              revs.map (toEvent fn sym)
                ++ Event.localWrite (cfg.localRawDir ++ "/" ++ relFund sym day fn) payload
                :: (upEvs ++ Event.sleep SLEEP_SECONDS :: evsRest))

/-- The outer symbol loop of `main` (lines 146-176): fetch prices with
one retry, `save_json` under `prices/...`, mirror to GCS, run the
fundamentals loop, and sleep once more between symbols (`i <
symbols_total`, i.e. whenever further symbols remain). -/
def symLoop (cfg : Config) (body : Oracle) (day : String) :
    RunState → List String → RunState × Except String Unit × List Event
  | st, [] => (st, Except.ok (), [])
  | st, sym :: rest =>
    match withRetry (callAttempt body "TIME_SERIES_DAILY_ADJUSTED" sym) 1 SLEEP_SECONDS with
    | (res, revs) =>
      match res with
      | Except.error m =>
        (st, Except.error m, revs.map (toEvent "TIME_SERIES_DAILY_ADJUSTED" sym))
      | Except.ok payload =>
        match upload_to_gcs cfg ((cfg.localRawDir ++ "/" ++ relPrices sym day, payload) :: st.fs)
            st.clientMade (cfg.localRawDir ++ "/" ++ relPrices sym day)
            ("raw/" ++ relPrices sym day) with
        | (made2, upEvs) =>
          match fundLoop cfg body day sym
              ⟨made2, (cfg.localRawDir ++ "/" ++ relPrices sym day, payload) :: st.fs⟩ FUND_FUNCS with
          | (st3, fres, fevs) =>
            match fres with
            | Except.error m =>
              (st3, Except.error m,
                revs.map (toEvent "TIME_SERIES_DAILY_ADJUSTED" sym)
                  ++ Event.localWrite (cfg.localRawDir ++ "/" ++ relPrices sym day) payload
                  :: (upEvs ++ fevs))
            | Except.ok _ =>
              match symLoop cfg body day st3 rest with
              | (st4, rres, revs2) =>
                (st4, rres,
                  revs.map (toEvent "TIME_SERIES_DAILY_ADJUSTED" sym)
                    ++ Event.localWrite (cfg.localRawDir ++ "/" ++ relPrices sym day) payload
                    :: (upEvs ++ fevs
                        ++ (if rest.isEmpty then [] else [Event.sleep SLEEP_SECONDS])
                        ++ revs2))

/-- `main()` (lines 135-178): abort if the API key is missing, compute
the UTC `day_path`, then run the symbol loop starting with no storage
client and an empty local day partition. Returns the run's outcome and
its event trace. -/
def mainRun (cfg : Config) (body : Oracle) (y m d : Nat) :
    Except String Unit × List Event :=
  if cfg.apiKey = "" then
    (Except.error "Missing ALPHAVANTAGE_API_KEY (set it in .env).", [])
  else
    match symLoop cfg body (dayPath y m d) ⟨false, []⟩ cfg.symbols with
    | (_, res, evs) => (res, evs)

/-! ## Trace observations -/
/-- Number of upload events in a trace. -/
def countUploads : List Event → Nat
  | [] => 0
  | Event.upload _ _ _ _ :: rest => countUploads rest + 1
  | _ :: rest => countUploads rest

/-- Number of storage-client constructions in a trace. -/
def countMkClient : List Event → Nat
  | [] => 0
  | Event.mkClient :: rest => countMkClient rest + 1
  | _ :: rest => countMkClient rest

/-- Has `(path, content)` been written? (Membership in the list of past
local writes.) -/
def hasWritten (written : List (String × Json)) (p : String) (c : Json) : Bool :=
  written.any (fun e => e.1 == p && Json.beq e.2 c)

/-- Scans a trace keeping the local writes seen so far; every upload
must be of a (path, bytes) pair previously written locally. -/
def uploadsCovered (written : List (String × Json)) : List Event → Bool
  | [] => true
  | Event.apiCall _ _ :: rest => uploadsCovered written rest
  | Event.sleep _ :: rest => uploadsCovered written rest
  | Event.mkClient :: rest => uploadsCovered written rest
  | Event.localWrite p pl :: rest => uploadsCovered ((p, pl) :: written) rest
  | Event.upload _ _ p c :: rest =>
    hasWritten written p c && uploadsCovered written rest

/-- Scans a trace maintaining the local filesystem contents; every
upload's object key must be the local path with the local root prefix
replaced by `raw/` and separators normalized, and its bytes must be the
bytes currently stored at the local path. -/
def mirrorConsistent (root : String) (fs : List (String × Json)) :
    List Event → Bool
  | [] => true
  | Event.apiCall _ _ :: rest => mirrorConsistent root fs rest
  | Event.sleep _ :: rest => mirrorConsistent root fs rest
  | Event.mkClient :: rest => mirrorConsistent root fs rest
  | Event.localWrite p pl :: rest => mirrorConsistent root ((p, pl) :: fs) rest
  | Event.upload _ k p c :: rest =>
    (k == normSlash ("raw/" ++ relOfLocal root p))
      && (match lookupStr fs p with
          | some pl => Json.beq pl c
          | none => false)
      && mirrorConsistent root fs rest

/-- Scans a trace tracking whether the storage client exists; fails if
it is ever constructed twice (`made` already true at a `mkClient`). -/
def clientSingleton (made : Bool) : List Event → Bool
  | [] => true
  | Event.mkClient :: rest => !made && clientSingleton true rest
  | _ :: rest => clientSingleton made rest

/-- Every construction of the storage client is immediately followed by
an upload: the client is only ever created to perform a mirror write. -/
def clientOnlyForUpload : List Event → Bool
  | [] => true
  | Event.mkClient :: rest =>
    (match rest with
     | Event.upload _ _ _ _ :: _ => true
     | _ => false)
      && clientOnlyForUpload rest
  | _ :: rest => clientOnlyForUpload rest

/-- Every sleep in the trace has duration `w`. -/
def sleepsAllAre (w : Nat) : List Event → Bool
  | [] => true
  | Event.sleep s :: rest => s == w && sleepsAllAre w rest
  | _ :: rest => sleepsAllAre w rest

/-- Is the event an outbound API request? -/
def isApiCallEv : Event → Bool
  | Event.apiCall _ _ => true
  | _ => false

/-- Is the event a sleep? -/
def isSleepEv : Event → Bool
  | Event.sleep _ => true
  | _ => false

/-- The subsequence of API requests and sleeps of a trace, in order. -/
def callsAndSleeps (evs : List Event) : List Event :=
  evs.filter (fun e => isApiCallEv e || isSleepEv e)

/-- No two API requests are adjacent (every pair of consecutive requests
has an intervening sleep) in a calls-and-sleeps subsequence. -/
def noAdjacentCalls : List Event → Bool
  | e1 :: e2 :: rest =>
    !(isApiCallEv e1 && isApiCallEv e2) && noAdjacentCalls (e2 :: rest)
  | _ => true

/-- Adjacency allowed between two consecutive calls-and-sleeps events:
two API requests may only be adjacent when the first is the prices
request and the second the OVERVIEW request of the same symbol. -/
def adjacentCallsOk : Event → Event → Bool
  | Event.apiCall f1 s1, Event.apiCall f2 s2 =>
    f1 == "TIME_SERIES_DAILY_ADJUSTED" && f2 == "OVERVIEW" && s1 == s2
  | _, _ => true

/-- Every adjacent pair of a calls-and-sleeps subsequence satisfies
`adjacentCallsOk`. -/
def pacedChain : List Event → Bool
  | e1 :: e2 :: rest => adjacentCallsOk e1 e2 && pacedChain (e2 :: rest)
  | _ => true

/-- The local paths written by a trace, in order. -/
def writePathsOf : List Event → List String
  | [] => []
  | Event.localWrite p _ :: rest => p :: writePathsOf rest
  | _ :: rest => writePathsOf rest

/-- The local paths `main` is specified to write, in order: for each
symbol, the prices file then the four fundamentals files. -/
def expectedWritePaths (root day : String) : List String → List String
  | [] => []
  | sym :: rest =>
    (root ++ "/" ++ relPrices sym day)
      :: (FUND_FUNCS.map (fun fn => root ++ "/" ++ relFund sym day fn)
          ++ expectedWritePaths root day rest)

/-! ## Claim C7: the pacing interval -/
/-- Every sleep the retry wrapper emits has duration `w`. -/
def retrySleepsAre (w : Nat) : List RetryEvent → Bool
  | [] => true
  | RetryEvent.invoke :: rest => retrySleepsAre w rest
  | RetryEvent.sleep s :: rest => s == w && retrySleepsAre w rest

/-! ## Claim C8: pacing between API calls -/
/-- The API requests and retry-backoff sleeps of one `_with_retry`-
wrapped fetch, as run events. Whatever the oracle returns, this segment
is nonempty and both begins and ends with the `apiCall fn sym` event. -/
def retryCalls (body : Oracle) (fn sym : String) : List Event :=
  (withRetry (callAttempt body fn sym) 1 SLEEP_SECONDS).2.map (toEvent fn sym)

/-- The calls-and-sleeps shape of the fundamentals loop on an arbitrary
run, with a continuation `k` for whatever the run does afterwards: each
category's retry segment, then — only if the fetch succeeded — the
pacing sleep and the rest; a raised error aborts the run, dropping the
continuation. -/
def fundCallsTail (body : Oracle) (sym : String) :
    List String → List Event → List Event
  | [], k => k
  | fn :: rest, k =>
    retryCalls body fn sym
      ++ match (withRetry (callAttempt body fn sym) 1 SLEEP_SECONDS).1 with
         | Except.error _ => []
         | Except.ok _ =>
           Event.sleep SLEEP_SECONDS :: fundCallsTail body sym rest k

/-- The calls-and-sleeps shape of an arbitrary run: for each symbol, the
prices retry segment — with no sleep after it — then, if prices
succeeded, the fundamentals shape, continuing (when the fundamentals
all succeeded) with the between-symbols sleep and the remaining
symbols. -/
def symCallsOf (body : Oracle) : List String → List Event
  | [] => []
  | sym :: rest =>
    retryCalls body "TIME_SERIES_DAILY_ADJUSTED" sym
      ++ match (withRetry (callAttempt body "TIME_SERIES_DAILY_ADJUSTED" sym)
                  1 SLEEP_SECONDS).1 with
         | Except.error _ => []
         | Except.ok _ =>
           fundCallsTail body sym FUND_FUNCS
             ((if rest.isEmpty then [] else [Event.sleep SLEEP_SECONDS])
               ++ symCallsOf body rest)

/-! ### Theorems -/

mutual
/-- `Json.beq` is reflexive. -/
theorem Json.beq_refl : (j : Json) → Json.beq j j = true
  | Json.null => rfl
  | Json.bool b => by simp [Json.beq]
  | Json.num n => by simp [Json.beq]
  | Json.str s => by simp [Json.beq]
  | Json.arr xs => by simp [Json.beq, beqList_refl xs]
  | Json.obj fs => by simp [Json.beq, beqFields_refl fs]

/-- `beqList` is reflexive. -/
theorem beqList_refl : (xs : List Json) → beqList xs xs = true
  | [] => rfl
  | x :: xs => by simp [beqList, Json.beq_refl x, beqList_refl xs]

/-- `beqFields` is reflexive. -/
theorem beqFields_refl : (fs : List (String × Json)) → beqFields fs fs = true
  | [] => rfl
  | (k, v) :: fs => by simp [beqFields, Json.beq_refl v, beqFields_refl fs]
end

-- quick sanity checks of the classification model
example :
    classify (Json.obj [("Error Message", Json.str "bad symbol")])
      = Except.error "API error: bad symbol" := rfl

example :
    classify (Json.obj [("Note", Json.str "Thank you for using Alpha Vantage!")])
      = Except.error "Rate limited: Thank you for using Alpha Vantage!" := rfl

example : classify (Json.arr [Json.num 3]) = Except.ok (Json.arr [Json.num 3]) := rfl

example :
    classify (Json.obj [("Note", Json.str "maintenance window")])
      = Except.ok (Json.obj [("Note", Json.str "maintenance window")]) := rfl

-- sanity checks of the run model on a concrete mirroring-off run
example :
    writePathsOf (mainRun ⟨"k", ["AAPL"], "/tmp/raw", false, ""⟩
        (fun _ _ _ => Json.obj []) 2024 1 15).2
      = ["/tmp/raw/prices/AAPL/2024/01/15/daily_adjusted.json",
         "/tmp/raw/fundamentals/AAPL/2024/01/15/overview.json",
         "/tmp/raw/fundamentals/AAPL/2024/01/15/income_statement.json",
         "/tmp/raw/fundamentals/AAPL/2024/01/15/balance_sheet.json",
         "/tmp/raw/fundamentals/AAPL/2024/01/15/cash_flow.json"] := by decide

example :
    countUploads (mainRun ⟨"k", ["AAPL"], "/tmp/raw", false, ""⟩
        (fun _ _ _ => Json.obj []) 2024 1 15).2 = 0 := rfl

example :
    noAdjacentCalls (callsAndSleeps (mainRun ⟨"k", ["AAPL"], "/tmp/raw", false, ""⟩
        (fun _ _ _ => Json.obj []) 2024 1 15).2) = false := rfl

example :
    pacedChain (callsAndSleeps (mainRun ⟨"k", ["AAPL", "MSFT"], "/tmp/raw", false, ""⟩
        (fun _ _ _ => Json.obj []) 2024 1 15).2) = true := rfl

-- mirroring on: uploads happen, are covered, keys and bytes match, one client
example :
    countUploads (mainRun ⟨"k", ["AAPL"], "/tmp/raw", true, "my-bucket"⟩
        (fun _ _ _ => Json.obj []) 2024 1 15).2 = 5 := rfl

example :
    uploadsCovered [] (mainRun ⟨"k", ["AAPL"], "/tmp/raw", true, "my-bucket"⟩
        (fun _ _ _ => Json.obj []) 2024 1 15).2 = true := by decide

example :
    mirrorConsistent "/tmp/raw" [] (mainRun ⟨"k", ["AAPL"], "/tmp/raw", true, "my-bucket"⟩
        (fun _ _ _ => Json.obj []) 2024 1 15).2 = true := by decide

example :
    countMkClient (mainRun ⟨"k", ["AAPL", "MSFT"], "/tmp/raw", true, "my-bucket"⟩
        (fun _ _ _ => Json.obj []) 2024 1 15).2 = 1 := rfl

example :
    clientOnlyForUpload (mainRun ⟨"k", ["AAPL"], "/tmp/raw", true, "my-bucket"⟩
        (fun _ _ _ => Json.obj []) 2024 1 15).2 = true := rfl

/-! ## Helper lemmas about substring matching and classification -/
theorem leadsList_self_append : ∀ (xs ys : List Char), leadsList xs (xs ++ ys) = true
  | [], _ => rfl
  | a :: as, ys => by simp [leadsList, leadsList_self_append as ys]

theorem subOccurs_nil : ∀ (l : List Char), subOccurs [] l = true
  | [] => rfl
  | _ :: rest => by simp [subOccurs, leadsList]

theorem subOccurs_self_append (n ys : List Char) : subOccurs n (n ++ ys) = true := by
  cases n with
  | nil => simpa using subOccurs_nil ys
  | cons a as =>
    simp only [List.cons_append, subOccurs, Bool.or_eq_true]
    exact Or.inl (leadsList_self_append (a :: as) ys)

/-- A string beginning with `pre` contains `pre`. -/
theorem strContains_left (pre s : String) : strContains (pre ++ s) pre = true := by
  simp [strContains, String.data_append, subOccurs_self_append]

/-- The retry wrapper recognizes every message raised by `_get`'s
rate-limit branch as a rate-limit condition. -/
theorem isRateMsg_rateLimited (s : String) : isRateMsg ("Rate limited: " ++ s) = true := by
  have h : ("Rate limited: " ++ s) = "Rate limited" ++ (": " ++ s) := by
    rw [show ("Rate limited: " : String) = "Rate limited" ++ ": " from rfl,
      String.append_assoc]
  rw [h]
  simp [isRateMsg, strContains_left]

/-- If a decoded body carries the throttle signal, `_get` raises the
rate-limit `RuntimeError`, whatever other keys the body has. -/
theorem classify_throttle (fields : List (String × Json)) (note : Json)
    (hn : lookupStr fields "Note" = some note)
    (ht : strContains (Json.pyStr note) "Thank you" = true) :
    classify (Json.obj fields) = Except.error ("Rate limited: " ++ Json.pyStr note) := by
  simp [classify, hn, ht]

/-- A throttle-signalled body classifies as a raised message that the
retry wrapper recognizes as a rate-limit condition. -/
theorem classify_of_signal (d : Json) (h : isRateLimitedSignal d = true) :
    ∃ msg, classify d = Except.error msg ∧ isRateMsg msg = true := by
  cases d with
  | obj fields =>
    dsimp [isRateLimitedSignal] at h
    cases hn : lookupStr fields "Note" with
    | none => rw [hn] at h; simp at h
    | some note =>
      rw [hn] at h
      exact ⟨_, classify_throttle fields note hn h, isRateMsg_rateLimited _⟩
  | null => simp [isRateLimitedSignal] at h
  | bool b => simp [isRateLimitedSignal] at h
  | num n => simp [isRateLimitedSignal] at h
  | str s => simp [isRateLimitedSignal] at h
  | arr xs => simp [isRateLimitedSignal] at h

/-! ## Transparency of retry events for the trace scanners -/
theorem uploadsCovered_map_toEvent (fnName sym : String) (revs : List RetryEvent)
    (W : List (String × Json)) (l : List Event) :
    uploadsCovered W (revs.map (toEvent fnName sym) ++ l) = uploadsCovered W l := by
  induction revs with
  | nil => simp
  | cons re rest ih => cases re <;> simp [toEvent, uploadsCovered, ih]

/-! ## Shapes of the events emitted by one `upload_to_gcs` call -/
theorem upload_to_gcs_events (cfg : Config) (fs : List (String × Json))
    (cm : Bool) (p k : String) :
    (upload_to_gcs cfg fs cm p k).2 = []
    ∨ (upload_to_gcs cfg fs cm p k).2
        = [Event.upload cfg.gcsBucket (normSlash k) p (readFile fs p)]
    ∨ (upload_to_gcs cfg fs cm p k).2
        = [Event.mkClient, Event.upload cfg.gcsBucket (normSlash k) p (readFile fs p)] := by
  simp only [upload_to_gcs]
  split
  · exact Or.inl rfl
  · split
    · exact Or.inr (Or.inl rfl)
    · exact Or.inr (Or.inr rfl)

/-! ## Claim C4: local write precedes remote upload -/
/-- For any continuation that is covered from every write history, the
fundamentals loop's events keep every upload covered by a preceding
local write of the same path and bytes. -/
theorem fundLoop_uploadsCovered (cfg : Config) (body : Oracle) (day sym : String) :
    ∀ (fns : List String) (st : RunState) (tail : List Event),
      (∀ W, uploadsCovered W tail = true) →
      ∀ W, uploadsCovered W ((fundLoop cfg body day sym st fns).2.2 ++ tail) = true := by
  intro fns
  induction fns with
  | nil =>
    intro st tail ht W
    simpa [fundLoop] using ht W
  | cons fn rest ih =>
    intro st tail ht W
    rcases hwr : withRetry (callAttempt body fn sym) 1 SLEEP_SECONDS with ⟨res, revs⟩
    cases res with
    | error m =>
      simp only [fundLoop, hwr]
      rw [uploadsCovered_map_toEvent]
      exact ht W
    | ok payload =>
      rcases hup : upload_to_gcs cfg
          ((cfg.localRawDir ++ "/" ++ relFund sym day fn, payload) :: st.fs)
          st.clientMade (cfg.localRawDir ++ "/" ++ relFund sym day fn)
          ("raw/" ++ relFund sym day fn) with ⟨made2, upEvs⟩
      rcases hfl : fundLoop cfg body day sym
          ⟨made2, (cfg.localRawDir ++ "/" ++ relFund sym day fn, payload) :: st.fs⟩ rest
        with ⟨st3, resRest, evsRest⟩
      have hrec : ∀ W2, uploadsCovered W2 (evsRest ++ tail) = true := by
        intro W2
        have h2 := ih ⟨made2,
          (cfg.localRawDir ++ "/" ++ relFund sym day fn, payload) :: st.fs⟩ tail ht W2
        rwa [hfl] at h2
      have hev := upload_to_gcs_events cfg
          ((cfg.localRawDir ++ "/" ++ relFund sym day fn, payload) :: st.fs)
          st.clientMade (cfg.localRawDir ++ "/" ++ relFund sym day fn)
          ("raw/" ++ relFund sym day fn)
      rw [hup] at hev
      simp only [fundLoop, hwr, hup, hfl]
      rcases hev with hev | hev | hev <;>
        subst hev <;>
        simp only [List.cons_append, List.append_assoc, List.singleton_append,
          List.nil_append] <;>
        rw [uploadsCovered_map_toEvent] <;>
        simp only [uploadsCovered, readFile, lookupStr, hasWritten, List.any_cons,
          eq_self_iff_true, if_true, Option.getD_some, beq_self_eq_true,
          Json.beq_refl, Bool.and_self, Bool.true_or, Bool.true_and] <;>
        exact hrec _

/-- For any continuation that is covered from every write history, the
symbol loop's events keep every upload covered by a preceding local
write of the same path and bytes. -/
theorem symLoop_uploadsCovered (cfg : Config) (body : Oracle) (day : String) :
    ∀ (syms : List String) (st : RunState) (tail : List Event),
      (∀ W, uploadsCovered W tail = true) →
      ∀ W, uploadsCovered W ((symLoop cfg body day st syms).2.2 ++ tail) = true := by
  intro syms
  induction syms with
  | nil =>
    intro st tail ht W
    simpa [symLoop] using ht W
  | cons sym rest ih =>
    intro st tail ht W
    rcases hwr : withRetry (callAttempt body "TIME_SERIES_DAILY_ADJUSTED" sym) 1 SLEEP_SECONDS
      with ⟨res, revs⟩
    cases res with
    | error m =>
      simp only [symLoop, hwr]
      rw [uploadsCovered_map_toEvent]
      exact ht W
    | ok payload =>
      rcases hup : upload_to_gcs cfg
          ((cfg.localRawDir ++ "/" ++ relPrices sym day, payload) :: st.fs)
          st.clientMade (cfg.localRawDir ++ "/" ++ relPrices sym day)
          ("raw/" ++ relPrices sym day) with ⟨made2, upEvs⟩
      have hev := upload_to_gcs_events cfg
          ((cfg.localRawDir ++ "/" ++ relPrices sym day, payload) :: st.fs)
          st.clientMade (cfg.localRawDir ++ "/" ++ relPrices sym day)
          ("raw/" ++ relPrices sym day)
      rw [hup] at hev
      rcases hfl : fundLoop cfg body day sym
          ⟨made2, (cfg.localRawDir ++ "/" ++ relPrices sym day, payload) :: st.fs⟩ FUND_FUNCS
        with ⟨st3, fres, fevs⟩
      cases fres with
      | error m =>
        have hfund : ∀ W2, uploadsCovered W2 (fevs ++ tail) = true := by
          intro W2
          have h2 := fundLoop_uploadsCovered cfg body day sym FUND_FUNCS
            ⟨made2, (cfg.localRawDir ++ "/" ++ relPrices sym day, payload) :: st.fs⟩
            tail ht W2
          rwa [hfl] at h2
        simp only [symLoop, hwr, hup, hfl]
        rcases hev with hev | hev | hev <;>
          subst hev <;>
          simp only [List.cons_append, List.append_assoc, List.singleton_append,
            List.nil_append] <;>
          rw [uploadsCovered_map_toEvent] <;>
          simp only [uploadsCovered, readFile, lookupStr, hasWritten, List.any_cons,
            eq_self_iff_true, if_true, Option.getD_some, beq_self_eq_true,
            Json.beq_refl, Bool.and_self, Bool.true_or, Bool.true_and] <;>
          exact hfund _
      | ok u =>
        rcases hsl : symLoop cfg body day st3 rest with ⟨st4, rres, revs2⟩
        have hrec : ∀ W2, uploadsCovered W2 (revs2 ++ tail) = true := by
          intro W2
          have h2 := ih st3 tail ht W2
          rwa [hsl] at h2
        have htail2 : ∀ W2, uploadsCovered W2
            ((if rest.isEmpty then [] else [Event.sleep SLEEP_SECONDS])
              ++ (revs2 ++ tail)) = true := by
          intro W2
          by_cases hr : rest.isEmpty <;> simp [hr, uploadsCovered, hrec W2]
        have hfund : ∀ W2, uploadsCovered W2
            (fevs ++ ((if rest.isEmpty then [] else [Event.sleep SLEEP_SECONDS])
              ++ (revs2 ++ tail))) = true := by
          intro W2
          have h2 := fundLoop_uploadsCovered cfg body day sym FUND_FUNCS
            ⟨made2, (cfg.localRawDir ++ "/" ++ relPrices sym day, payload) :: st.fs⟩
            _ htail2 W2
          rwa [hfl] at h2
        simp only [symLoop, hwr, hup, hfl, hsl]
        rcases hev with hev | hev | hev <;>
          subst hev <;>
          simp only [List.cons_append, List.append_assoc, List.singleton_append,
            List.nil_append] <;>
          rw [uploadsCovered_map_toEvent] <;>
          simp only [uploadsCovered, readFile, lookupStr, hasWritten, List.any_cons,
            eq_self_iff_true, if_true, Option.getD_some, beq_self_eq_true,
            Json.beq_refl, Bool.and_self, Bool.true_or, Bool.true_and] <;>
          exact hfund _

/-! ## Claim C6: remote keys and bytes mirror the local write -/
/-- `relative_to` recovers the relative part of a path built as
`root / rel`. -/
theorem relOfLocal_append (root rel : String) :
    relOfLocal root (root ++ "/" ++ rel) = rel := by
  apply String.ext
  show ((root ++ "/" ++ rel).data).drop (root.data.length + 1) = rel.data
  rw [String.data_append, String.data_append]
  have hsl : ("/" : String).data = ['/'] := rfl
  rw [hsl]
  have hlen : (root.data ++ ['/']).length = root.data.length + 1 := by simp
  exact List.drop_left' hlen

theorem mirrorConsistent_map_toEvent (fnName sym : String) (revs : List RetryEvent)
    (root : String) (fs : List (String × Json)) (l : List Event) :
    mirrorConsistent root fs (revs.map (toEvent fnName sym) ++ l)
      = mirrorConsistent root fs l := by
  induction revs with
  | nil => simp
  | cons re rest ih => cases re <;> simp [toEvent, mirrorConsistent, ih]

/-- For any continuation that is mirror-consistent from every filesystem
state, the fundamentals loop's events keep every upload's key and bytes
consistent with the local write. -/
theorem fundLoop_mirrorConsistent (cfg : Config) (body : Oracle) (day sym : String) :
    ∀ (fns : List String) (st : RunState) (tail : List Event),
      (∀ F, mirrorConsistent cfg.localRawDir F tail = true) →
      ∀ F, mirrorConsistent cfg.localRawDir F
        ((fundLoop cfg body day sym st fns).2.2 ++ tail) = true := by
  intro fns
  induction fns with
  | nil =>
    intro st tail ht F
    simpa [fundLoop] using ht F
  | cons fn rest ih =>
    intro st tail ht F
    rcases hwr : withRetry (callAttempt body fn sym) 1 SLEEP_SECONDS with ⟨res, revs⟩
    cases res with
    | error m =>
      simp only [fundLoop, hwr]
      rw [mirrorConsistent_map_toEvent]
      exact ht F
    | ok payload =>
      rcases hup : upload_to_gcs cfg
          ((cfg.localRawDir ++ "/" ++ relFund sym day fn, payload) :: st.fs)
          st.clientMade (cfg.localRawDir ++ "/" ++ relFund sym day fn)
          ("raw/" ++ relFund sym day fn) with ⟨made2, upEvs⟩
      rcases hfl : fundLoop cfg body day sym
          ⟨made2, (cfg.localRawDir ++ "/" ++ relFund sym day fn, payload) :: st.fs⟩ rest
        with ⟨st3, resRest, evsRest⟩
      have hrec : ∀ F2, mirrorConsistent cfg.localRawDir F2 (evsRest ++ tail) = true := by
        intro F2
        have h2 := ih ⟨made2,
          (cfg.localRawDir ++ "/" ++ relFund sym day fn, payload) :: st.fs⟩ tail ht F2
        rwa [hfl] at h2
      have hev := upload_to_gcs_events cfg
          ((cfg.localRawDir ++ "/" ++ relFund sym day fn, payload) :: st.fs)
          st.clientMade (cfg.localRawDir ++ "/" ++ relFund sym day fn)
          ("raw/" ++ relFund sym day fn)
      rw [hup] at hev
      simp only [fundLoop, hwr, hup, hfl]
      rcases hev with hev | hev | hev <;>
        subst hev <;>
        simp only [List.cons_append, List.append_assoc, List.singleton_append,
          List.nil_append] <;>
        rw [mirrorConsistent_map_toEvent] <;>
        simp only [mirrorConsistent, readFile, lookupStr, relOfLocal_append,
          eq_self_iff_true, if_true, Option.getD_some, beq_self_eq_true,
          Json.beq_refl, Bool.and_self, Bool.true_and] <;>
        exact hrec _

/-- For any continuation that is mirror-consistent from every filesystem
state, the symbol loop's events keep every upload's key and bytes
consistent with the local write. -/
theorem symLoop_mirrorConsistent (cfg : Config) (body : Oracle) (day : String) :
    ∀ (syms : List String) (st : RunState) (tail : List Event),
      (∀ F, mirrorConsistent cfg.localRawDir F tail = true) →
      ∀ F, mirrorConsistent cfg.localRawDir F
        ((symLoop cfg body day st syms).2.2 ++ tail) = true := by
  intro syms
  induction syms with
  | nil =>
    intro st tail ht F
    simpa [symLoop] using ht F
  | cons sym rest ih =>
    intro st tail ht F
    rcases hwr : withRetry (callAttempt body "TIME_SERIES_DAILY_ADJUSTED" sym) 1 SLEEP_SECONDS
      with ⟨res, revs⟩
    cases res with
    | error m =>
      simp only [symLoop, hwr]
      rw [mirrorConsistent_map_toEvent]
      exact ht F
    | ok payload =>
      rcases hup : upload_to_gcs cfg
          ((cfg.localRawDir ++ "/" ++ relPrices sym day, payload) :: st.fs)
          st.clientMade (cfg.localRawDir ++ "/" ++ relPrices sym day)
          ("raw/" ++ relPrices sym day) with ⟨made2, upEvs⟩
      have hev := upload_to_gcs_events cfg
          ((cfg.localRawDir ++ "/" ++ relPrices sym day, payload) :: st.fs)
          st.clientMade (cfg.localRawDir ++ "/" ++ relPrices sym day)
          ("raw/" ++ relPrices sym day)
      rw [hup] at hev
      rcases hfl : fundLoop cfg body day sym
          ⟨made2, (cfg.localRawDir ++ "/" ++ relPrices sym day, payload) :: st.fs⟩ FUND_FUNCS
        with ⟨st3, fres, fevs⟩
      cases fres with
      | error m =>
        have hfund : ∀ F2, mirrorConsistent cfg.localRawDir F2 (fevs ++ tail) = true := by
          intro F2
          have h2 := fundLoop_mirrorConsistent cfg body day sym FUND_FUNCS
            ⟨made2, (cfg.localRawDir ++ "/" ++ relPrices sym day, payload) :: st.fs⟩
            tail ht F2
          rwa [hfl] at h2
        simp only [symLoop, hwr, hup, hfl]
        rcases hev with hev | hev | hev <;>
          subst hev <;>
          simp only [List.cons_append, List.append_assoc, List.singleton_append,
            List.nil_append] <;>
          rw [mirrorConsistent_map_toEvent] <;>
          simp only [mirrorConsistent, readFile, lookupStr, relOfLocal_append,
            eq_self_iff_true, if_true, Option.getD_some, beq_self_eq_true,
            Json.beq_refl, Bool.and_self, Bool.true_and] <;>
          exact hfund _
      | ok u =>
        rcases hsl : symLoop cfg body day st3 rest with ⟨st4, rres, revs2⟩
        have hrec : ∀ F2, mirrorConsistent cfg.localRawDir F2 (revs2 ++ tail) = true := by
          intro F2
          have h2 := ih st3 tail ht F2
          rwa [hsl] at h2
        have htail2 : ∀ F2, mirrorConsistent cfg.localRawDir F2
            ((if rest.isEmpty then [] else [Event.sleep SLEEP_SECONDS])
              ++ (revs2 ++ tail)) = true := by
          intro F2
          by_cases hr : rest.isEmpty <;> simp [hr, mirrorConsistent, hrec F2]
        have hfund : ∀ F2, mirrorConsistent cfg.localRawDir F2
            (fevs ++ ((if rest.isEmpty then [] else [Event.sleep SLEEP_SECONDS])
              ++ (revs2 ++ tail))) = true := by
          intro F2
          have h2 := fundLoop_mirrorConsistent cfg body day sym FUND_FUNCS
            ⟨made2, (cfg.localRawDir ++ "/" ++ relPrices sym day, payload) :: st.fs⟩
            _ htail2 F2
          rwa [hfl] at h2
        simp only [symLoop, hwr, hup, hfl, hsl]
        rcases hev with hev | hev | hev <;>
          subst hev <;>
          simp only [List.cons_append, List.append_assoc, List.singleton_append,
            List.nil_append] <;>
          rw [mirrorConsistent_map_toEvent] <;>
          simp only [mirrorConsistent, readFile, lookupStr, relOfLocal_append,
            eq_self_iff_true, if_true, Option.getD_some, beq_self_eq_true,
            Json.beq_refl, Bool.and_self, Bool.true_and] <;>
          exact hfund _

/-! ## No remote activity when mirroring is off -/
/-- `upload_to_gcs` returns immediately when `WRITE_TO_GCS` is false or
no bucket is configured. -/
theorem upload_to_gcs_disabled (cfg : Config) (fs : List (String × Json))
    (cm : Bool) (p k : String) (h : cfg.writeToGcs = false ∨ cfg.gcsBucket = "") :
    upload_to_gcs cfg fs cm p k = (cm, []) := by
  simp only [upload_to_gcs, if_pos h]

theorem countUploads_append (xs ys : List Event) :
    countUploads (xs ++ ys) = countUploads xs + countUploads ys := by
  induction xs with
  | nil => simp [countUploads]
  | cons e rest ih => cases e <;> simp [countUploads, ih] <;> omega

theorem countMkClient_append (xs ys : List Event) :
    countMkClient (xs ++ ys) = countMkClient xs + countMkClient ys := by
  induction xs with
  | nil => simp [countMkClient]
  | cons e rest ih => cases e <;> simp [countMkClient, ih] <;> omega

theorem countUploads_map_toEvent (fnName sym : String) (revs : List RetryEvent) :
    countUploads (revs.map (toEvent fnName sym)) = 0 := by
  induction revs with
  | nil => rfl
  | cons re rest ih => cases re <;> simp [toEvent, countUploads, ih]

theorem countMkClient_map_toEvent (fnName sym : String) (revs : List RetryEvent) :
    countMkClient (revs.map (toEvent fnName sym)) = 0 := by
  induction revs with
  | nil => rfl
  | cons re rest ih => cases re <;> simp [toEvent, countMkClient, ih]

/-- With mirroring off, the fundamentals loop performs no uploads and
never constructs the storage client. -/
theorem fundLoop_disabled (cfg : Config) (body : Oracle) (day sym : String)
    (h : cfg.writeToGcs = false ∨ cfg.gcsBucket = "") :
    ∀ (fns : List String) (st : RunState),
      countUploads (fundLoop cfg body day sym st fns).2.2 = 0
      ∧ countMkClient (fundLoop cfg body day sym st fns).2.2 = 0 := by
  intro fns
  induction fns with
  | nil => intro st; simp [fundLoop, countUploads, countMkClient]
  | cons fn rest ih =>
    intro st
    rcases hwr : withRetry (callAttempt body fn sym) 1 SLEEP_SECONDS with ⟨res, revs⟩
    cases res with
    | error m =>
      simp [fundLoop, hwr, countUploads_map_toEvent, countMkClient_map_toEvent]
    | ok payload =>
      rcases hfl : fundLoop cfg body day sym
          ⟨st.clientMade, (cfg.localRawDir ++ "/" ++ relFund sym day fn, payload) :: st.fs⟩ rest
        with ⟨st3, resRest, evsRest⟩
      have hr := ih ⟨st.clientMade,
        (cfg.localRawDir ++ "/" ++ relFund sym day fn, payload) :: st.fs⟩
      rw [hfl] at hr
      simp [fundLoop, hwr, upload_to_gcs_disabled cfg _ st.clientMade _ _ h, hfl,
        countUploads_append, countMkClient_append, countUploads, countMkClient,
        countUploads_map_toEvent, countMkClient_map_toEvent, hr.1, hr.2]

/-- With mirroring off, a run performs no uploads and never constructs
the storage client. -/
theorem symLoop_disabled (cfg : Config) (body : Oracle) (day : String)
    (h : cfg.writeToGcs = false ∨ cfg.gcsBucket = "") :
    ∀ (syms : List String) (st : RunState),
      countUploads (symLoop cfg body day st syms).2.2 = 0
      ∧ countMkClient (symLoop cfg body day st syms).2.2 = 0 := by
  intro syms
  induction syms with
  | nil => intro st; simp [symLoop, countUploads, countMkClient]
  | cons sym rest ih =>
    intro st
    rcases hwr : withRetry (callAttempt body "TIME_SERIES_DAILY_ADJUSTED" sym) 1 SLEEP_SECONDS
      with ⟨res, revs⟩
    cases res with
    | error m =>
      simp [symLoop, hwr, countUploads_map_toEvent, countMkClient_map_toEvent]
    | ok payload =>
      rcases hfl : fundLoop cfg body day sym
          ⟨st.clientMade, (cfg.localRawDir ++ "/" ++ relPrices sym day, payload) :: st.fs⟩
          FUND_FUNCS
        with ⟨st3, fres, fevs⟩
      have hf := fundLoop_disabled cfg body day sym h FUND_FUNCS
        ⟨st.clientMade, (cfg.localRawDir ++ "/" ++ relPrices sym day, payload) :: st.fs⟩
      rw [hfl] at hf
      cases fres with
      | error m =>
        simp [symLoop, hwr, upload_to_gcs_disabled cfg _ st.clientMade _ _ h, hfl,
          countUploads_append, countMkClient_append, countUploads, countMkClient,
          countUploads_map_toEvent, countMkClient_map_toEvent, hf.1, hf.2]
      | ok u =>
        rcases hsl : symLoop cfg body day st3 rest with ⟨st4, rres, revs2⟩
        have hr := ih st3
        rw [hsl] at hr
        by_cases hrest : rest.isEmpty <;>
          simp [symLoop, hwr, upload_to_gcs_disabled cfg _ st.clientMade _ _ h, hfl, hsl,
            hrest, countUploads_append, countMkClient_append, countUploads, countMkClient,
            countUploads_map_toEvent, countMkClient_map_toEvent, hf.1, hf.2, hr.1, hr.2]

/-- Claim C6. In every run, every mirror upload's object key is the
local path with the local root prefix replaced by "raw/" and separators
normalized to forward slashes, and the uploaded bytes are the bytes of
the local file at upload time; and when mirroring is disabled or no
bucket is configured, no upload occurs. -/
theorem avC6_mirrorKeyAndBytes (cfg : Config) (body : Oracle) (y m d : Nat) :
    mirrorConsistent cfg.localRawDir [] (mainRun cfg body y m d).2 = true
    ∧ (cfg.writeToGcs = false ∨ cfg.gcsBucket = "" →
        countUploads (mainRun cfg body y m d).2 = 0) := by
  by_cases hk : cfg.apiKey = ""
  · simp [mainRun, hk, mirrorConsistent, countUploads]
  · rcases hsl : symLoop cfg body (dayPath y m d) ⟨false, []⟩ cfg.symbols
      with ⟨st, res, evs⟩
    constructor
    · have h2 := symLoop_mirrorConsistent cfg body (dayPath y m d) cfg.symbols
        ⟨false, []⟩ [] (fun _ => rfl) []
      rw [hsl] at h2
      simp only [mainRun, if_neg hk, hsl]
      simpa using h2
    · intro hoff
      have h2 := (symLoop_disabled cfg body (dayPath y m d) hoff cfg.symbols ⟨false, []⟩).1
      rw [hsl] at h2
      simp only [mainRun, if_neg hk, hsl]
      exact h2

/-- Claim C6: witness (mirroring disabled and bucket unconfigured on a
one-symbol run). -/
theorem avC6_mirrorKeyAndBytes_witness :
    mirrorConsistent "/tmp/raw" []
        (mainRun ⟨"k", ["AAPL"], "/tmp/raw", false, ""⟩
          (fun _ _ _ => Json.obj []) 2024 1 15).2 = true
    ∧ ((⟨"k", ["AAPL"], "/tmp/raw", false, ""⟩ : Config).writeToGcs = false
        ∨ (⟨"k", ["AAPL"], "/tmp/raw", false, ""⟩ : Config).gcsBucket = "")
    ∧ countUploads
        (mainRun ⟨"k", ["AAPL"], "/tmp/raw", false, ""⟩
          (fun _ _ _ => Json.obj []) 2024 1 15).2 = 0 :=
  ⟨(avC6_mirrorKeyAndBytes ⟨"k", ["AAPL"], "/tmp/raw", false, ""⟩
      (fun _ _ _ => Json.obj []) 2024 1 15).1,
    Or.inl rfl,
    (avC6_mirrorKeyAndBytes ⟨"k", ["AAPL"], "/tmp/raw", false, ""⟩
      (fun _ _ _ => Json.obj []) 2024 1 15).2 (Or.inl rfl)⟩

/-! ## Claim C9: the storage client is a lazily-built singleton -/
theorem clientSingleton_map_toEvent (fnName sym : String) (revs : List RetryEvent)
    (made : Bool) (l : List Event) :
    clientSingleton made (revs.map (toEvent fnName sym) ++ l)
      = clientSingleton made l := by
  induction revs with
  | nil => simp
  | cons re rest ih => cases re <;> simp [toEvent, clientSingleton, ih]

theorem clientOnlyForUpload_map_toEvent (fnName sym : String) (revs : List RetryEvent)
    (l : List Event) :
    clientOnlyForUpload (revs.map (toEvent fnName sym) ++ l)
      = clientOnlyForUpload l := by
  induction revs with
  | nil => simp
  | cons re rest ih => cases re <;> simp [toEvent, clientOnlyForUpload, ih]

/-- Scanning the events of one `upload_to_gcs` call advances the
client-existence state exactly to the call's returned state, and never
re-creates an existing client. -/
theorem upload_to_gcs_clientSingleton (cfg : Config) (fs : List (String × Json))
    (cm : Bool) (p k : String) (l : List Event) :
    clientSingleton cm ((upload_to_gcs cfg fs cm p k).2 ++ l)
      = clientSingleton (upload_to_gcs cfg fs cm p k).1 l := by
  simp only [upload_to_gcs]
  split
  · simp
  · split
    · next hcm => simp [clientSingleton, hcm]
    · next hcm => simp [clientSingleton, Bool.not_eq_true] at hcm ⊢; simp [hcm, clientSingleton]

/-- Every client construction inside one `upload_to_gcs` call is
immediately followed by an upload. -/
theorem upload_to_gcs_clientOnly (cfg : Config) (fs : List (String × Json))
    (cm : Bool) (p k : String) (l : List Event) :
    clientOnlyForUpload ((upload_to_gcs cfg fs cm p k).2 ++ l)
      = clientOnlyForUpload l := by
  simp only [upload_to_gcs]
  split
  · simp
  · split <;> simp [clientOnlyForUpload]

/-- Scanning the fundamentals loop's events advances the
client-existence state exactly to the loop's final state, never
re-creating an existing client. -/
theorem fundLoop_clientSingleton (cfg : Config) (body : Oracle) (day sym : String) :
    ∀ (fns : List String) (st : RunState) (tail : List Event),
      clientSingleton st.clientMade ((fundLoop cfg body day sym st fns).2.2 ++ tail)
        = clientSingleton (fundLoop cfg body day sym st fns).1.clientMade tail := by
  intro fns
  induction fns with
  | nil => intro st tail; simp [fundLoop]
  | cons fn rest ih =>
    intro st tail
    rcases hwr : withRetry (callAttempt body fn sym) 1 SLEEP_SECONDS with ⟨res, revs⟩
    cases res with
    | error m =>
      simp only [fundLoop, hwr]
      rw [clientSingleton_map_toEvent]
    | ok payload =>
      rcases hup : upload_to_gcs cfg
          ((cfg.localRawDir ++ "/" ++ relFund sym day fn, payload) :: st.fs)
          st.clientMade (cfg.localRawDir ++ "/" ++ relFund sym day fn)
          ("raw/" ++ relFund sym day fn) with ⟨made2, upEvs⟩
      rcases hfl : fundLoop cfg body day sym
          ⟨made2, (cfg.localRawDir ++ "/" ++ relFund sym day fn, payload) :: st.fs⟩ rest
        with ⟨st3, resRest, evsRest⟩
      have hupc := upload_to_gcs_clientSingleton cfg
          ((cfg.localRawDir ++ "/" ++ relFund sym day fn, payload) :: st.fs)
          st.clientMade (cfg.localRawDir ++ "/" ++ relFund sym day fn)
          ("raw/" ++ relFund sym day fn)
          (Event.sleep SLEEP_SECONDS :: (evsRest ++ tail))
      rw [hup] at hupc
      have hih := ih ⟨made2,
        (cfg.localRawDir ++ "/" ++ relFund sym day fn, payload) :: st.fs⟩ tail
      rw [hfl] at hih
      simp only [fundLoop, hwr, hup, hfl]
      simp only [List.cons_append, List.append_assoc, List.nil_append]
      rw [clientSingleton_map_toEvent]
      simp only [clientSingleton]
      rw [hupc]
      simpa [clientSingleton] using hih

/-- Scanning the symbol loop's events advances the client-existence
state exactly to the loop's final state, never re-creating an existing
client. -/
theorem symLoop_clientSingleton (cfg : Config) (body : Oracle) (day : String) :
    ∀ (syms : List String) (st : RunState) (tail : List Event),
      clientSingleton st.clientMade ((symLoop cfg body day st syms).2.2 ++ tail)
        = clientSingleton (symLoop cfg body day st syms).1.clientMade tail := by
  intro syms
  induction syms with
  | nil => intro st tail; simp [symLoop]
  | cons sym rest ih =>
    intro st tail
    rcases hwr : withRetry (callAttempt body "TIME_SERIES_DAILY_ADJUSTED" sym) 1 SLEEP_SECONDS
      with ⟨res, revs⟩
    cases res with
    | error m =>
      simp only [symLoop, hwr]
      rw [clientSingleton_map_toEvent]
    | ok payload =>
      rcases hup : upload_to_gcs cfg
          ((cfg.localRawDir ++ "/" ++ relPrices sym day, payload) :: st.fs)
          st.clientMade (cfg.localRawDir ++ "/" ++ relPrices sym day)
          ("raw/" ++ relPrices sym day) with ⟨made2, upEvs⟩
      rcases hfl : fundLoop cfg body day sym
          ⟨made2, (cfg.localRawDir ++ "/" ++ relPrices sym day, payload) :: st.fs⟩ FUND_FUNCS
        with ⟨st3, fres, fevs⟩
      cases fres with
      | error m =>
        have hupc := upload_to_gcs_clientSingleton cfg
            ((cfg.localRawDir ++ "/" ++ relPrices sym day, payload) :: st.fs)
            st.clientMade (cfg.localRawDir ++ "/" ++ relPrices sym day)
            ("raw/" ++ relPrices sym day) (fevs ++ tail)
        rw [hup] at hupc
        have hf := fundLoop_clientSingleton cfg body day sym FUND_FUNCS
          ⟨made2, (cfg.localRawDir ++ "/" ++ relPrices sym day, payload) :: st.fs⟩ tail
        rw [hfl] at hf
        simp only [symLoop, hwr, hup, hfl]
        simp only [List.cons_append, List.append_assoc, List.nil_append]
        rw [clientSingleton_map_toEvent]
        simp only [clientSingleton]
        rw [hupc]
        simpa [clientSingleton] using hf
      | ok u =>
        rcases hsl : symLoop cfg body day st3 rest with ⟨st4, rres, revs2⟩
        have hupc := upload_to_gcs_clientSingleton cfg
            ((cfg.localRawDir ++ "/" ++ relPrices sym day, payload) :: st.fs)
            st.clientMade (cfg.localRawDir ++ "/" ++ relPrices sym day)
            ("raw/" ++ relPrices sym day)
            (fevs ++ ((if rest.isEmpty then [] else [Event.sleep SLEEP_SECONDS])
              ++ (revs2 ++ tail)))
        rw [hup] at hupc
        have hf := fundLoop_clientSingleton cfg body day sym FUND_FUNCS
          ⟨made2, (cfg.localRawDir ++ "/" ++ relPrices sym day, payload) :: st.fs⟩
          ((if rest.isEmpty then [] else [Event.sleep SLEEP_SECONDS]) ++ (revs2 ++ tail))
        rw [hfl] at hf
        have hr := ih st3 tail
        rw [hsl] at hr
        simp only [symLoop, hwr, hup, hfl, hsl]
        simp only [List.cons_append, List.append_assoc, List.nil_append]
        rw [clientSingleton_map_toEvent]
        simp only [clientSingleton]
        rw [hupc, hf]
        by_cases hrest : rest.isEmpty <;>
          simpa [hrest, clientSingleton] using hr

/-- The fundamentals loop only ever constructs the client immediately
before an upload. -/
theorem fundLoop_clientOnly (cfg : Config) (body : Oracle) (day sym : String) :
    ∀ (fns : List String) (st : RunState) (tail : List Event),
      clientOnlyForUpload ((fundLoop cfg body day sym st fns).2.2 ++ tail)
        = clientOnlyForUpload tail := by
  intro fns
  induction fns with
  | nil => intro st tail; simp [fundLoop]
  | cons fn rest ih =>
    intro st tail
    rcases hwr : withRetry (callAttempt body fn sym) 1 SLEEP_SECONDS with ⟨res, revs⟩
    cases res with
    | error m =>
      simp only [fundLoop, hwr]
      rw [clientOnlyForUpload_map_toEvent]
    | ok payload =>
      rcases hup : upload_to_gcs cfg
          ((cfg.localRawDir ++ "/" ++ relFund sym day fn, payload) :: st.fs)
          st.clientMade (cfg.localRawDir ++ "/" ++ relFund sym day fn)
          ("raw/" ++ relFund sym day fn) with ⟨made2, upEvs⟩
      rcases hfl : fundLoop cfg body day sym
          ⟨made2, (cfg.localRawDir ++ "/" ++ relFund sym day fn, payload) :: st.fs⟩ rest
        with ⟨st3, resRest, evsRest⟩
      have hupc := upload_to_gcs_clientOnly cfg
          ((cfg.localRawDir ++ "/" ++ relFund sym day fn, payload) :: st.fs)
          st.clientMade (cfg.localRawDir ++ "/" ++ relFund sym day fn)
          ("raw/" ++ relFund sym day fn)
          (Event.sleep SLEEP_SECONDS :: (evsRest ++ tail))
      rw [hup] at hupc
      have hih := ih ⟨made2,
        (cfg.localRawDir ++ "/" ++ relFund sym day fn, payload) :: st.fs⟩ tail
      rw [hfl] at hih
      simp only [fundLoop, hwr, hup, hfl]
      simp only [List.cons_append, List.append_assoc, List.nil_append]
      rw [clientOnlyForUpload_map_toEvent]
      simp only [clientOnlyForUpload]
      rw [hupc]
      simpa [clientOnlyForUpload] using hih

/-- The symbol loop only ever constructs the client immediately before
an upload. -/
theorem symLoop_clientOnly (cfg : Config) (body : Oracle) (day : String) :
    ∀ (syms : List String) (st : RunState) (tail : List Event),
      clientOnlyForUpload ((symLoop cfg body day st syms).2.2 ++ tail)
        = clientOnlyForUpload tail := by
  intro syms
  induction syms with
  | nil => intro st tail; simp [symLoop]
  | cons sym rest ih =>
    intro st tail
    rcases hwr : withRetry (callAttempt body "TIME_SERIES_DAILY_ADJUSTED" sym) 1 SLEEP_SECONDS
      with ⟨res, revs⟩
    cases res with
    | error m =>
      simp only [symLoop, hwr]
      rw [clientOnlyForUpload_map_toEvent]
    | ok payload =>
      rcases hup : upload_to_gcs cfg
          ((cfg.localRawDir ++ "/" ++ relPrices sym day, payload) :: st.fs)
          st.clientMade (cfg.localRawDir ++ "/" ++ relPrices sym day)
          ("raw/" ++ relPrices sym day) with ⟨made2, upEvs⟩
      rcases hfl : fundLoop cfg body day sym
          ⟨made2, (cfg.localRawDir ++ "/" ++ relPrices sym day, payload) :: st.fs⟩ FUND_FUNCS
        with ⟨st3, fres, fevs⟩
      cases fres with
      | error m =>
        have hupc := upload_to_gcs_clientOnly cfg
            ((cfg.localRawDir ++ "/" ++ relPrices sym day, payload) :: st.fs)
            st.clientMade (cfg.localRawDir ++ "/" ++ relPrices sym day)
            ("raw/" ++ relPrices sym day) (fevs ++ tail)
        rw [hup] at hupc
        have hf := fundLoop_clientOnly cfg body day sym FUND_FUNCS
          ⟨made2, (cfg.localRawDir ++ "/" ++ relPrices sym day, payload) :: st.fs⟩ tail
        rw [hfl] at hf
        simp only [symLoop, hwr, hup, hfl]
        simp only [List.cons_append, List.append_assoc, List.nil_append]
        rw [clientOnlyForUpload_map_toEvent]
        simp only [clientOnlyForUpload]
        rw [hupc]
        simpa [clientOnlyForUpload] using hf
      | ok u =>
        rcases hsl : symLoop cfg body day st3 rest with ⟨st4, rres, revs2⟩
        have hupc := upload_to_gcs_clientOnly cfg
            ((cfg.localRawDir ++ "/" ++ relPrices sym day, payload) :: st.fs)
            st.clientMade (cfg.localRawDir ++ "/" ++ relPrices sym day)
            ("raw/" ++ relPrices sym day)
            (fevs ++ ((if rest.isEmpty then [] else [Event.sleep SLEEP_SECONDS])
              ++ (revs2 ++ tail)))
        rw [hup] at hupc
        have hf := fundLoop_clientOnly cfg body day sym FUND_FUNCS
          ⟨made2, (cfg.localRawDir ++ "/" ++ relPrices sym day, payload) :: st.fs⟩
          ((if rest.isEmpty then [] else [Event.sleep SLEEP_SECONDS]) ++ (revs2 ++ tail))
        rw [hfl] at hf
        have hr := ih st3 tail
        rw [hsl] at hr
        simp only [symLoop, hwr, hup, hfl, hsl]
        simp only [List.cons_append, List.append_assoc, List.nil_append]
        rw [clientOnlyForUpload_map_toEvent]
        simp only [clientOnlyForUpload]
        rw [hupc, hf]
        by_cases hrest : rest.isEmpty <;>
          simpa [hrest, clientOnlyForUpload] using hr

/-- Claim C9. In every run the remote-store client is constructed at
most once (`clientSingleton false`), every construction happens
immediately before a mirror upload is performed (so it is constructed
only when mirroring is enabled, a bucket is configured, and a payload is
uploaded), and with mirroring disabled it is never constructed. -/
theorem avC9_lazyClientSingleton (cfg : Config) (body : Oracle) (y m d : Nat) :
    clientSingleton false (mainRun cfg body y m d).2 = true
    ∧ clientOnlyForUpload (mainRun cfg body y m d).2 = true
    ∧ (cfg.writeToGcs = false → countMkClient (mainRun cfg body y m d).2 = 0) := by
  by_cases hk : cfg.apiKey = ""
  · simp [mainRun, hk, clientSingleton, clientOnlyForUpload, countMkClient]
  · rcases hsl : symLoop cfg body (dayPath y m d) ⟨false, []⟩ cfg.symbols
      with ⟨st, res, evs⟩
    refine ⟨?_, ?_, ?_⟩
    · have h2 := symLoop_clientSingleton cfg body (dayPath y m d) cfg.symbols ⟨false, []⟩ []
      rw [hsl] at h2
      simp only [mainRun, if_neg hk, hsl]
      simpa [clientSingleton] using h2
    · have h2 := symLoop_clientOnly cfg body (dayPath y m d) cfg.symbols ⟨false, []⟩ []
      rw [hsl] at h2
      simp only [mainRun, if_neg hk, hsl]
      simpa [clientOnlyForUpload] using h2
    · intro hoff
      have h2 := (symLoop_disabled cfg body (dayPath y m d) (Or.inl hoff)
        cfg.symbols ⟨false, []⟩).2
      rw [hsl] at h2
      simp only [mainRun, if_neg hk, hsl]
      exact h2

/-- Claim C9: witness (mirroring disabled on a one-symbol run). -/
theorem avC9_lazyClientSingleton_witness :
    clientSingleton false
        (mainRun ⟨"k", ["AAPL"], "/tmp/raw", false, ""⟩
          (fun _ _ _ => Json.obj []) 2024 1 15).2 = true
    ∧ (⟨"k", ["AAPL"], "/tmp/raw", false, ""⟩ : Config).writeToGcs = false
    ∧ countMkClient
        (mainRun ⟨"k", ["AAPL"], "/tmp/raw", false, ""⟩
          (fun _ _ _ => Json.obj []) 2024 1 15).2 = 0 :=
  ⟨(avC9_lazyClientSingleton ⟨"k", ["AAPL"], "/tmp/raw", false, ""⟩
      (fun _ _ _ => Json.obj []) 2024 1 15).1,
    rfl,
    (avC9_lazyClientSingleton ⟨"k", ["AAPL"], "/tmp/raw", false, ""⟩
      (fun _ _ _ => Json.obj []) 2024 1 15).2.2 rfl⟩

/-- Claim C4. In every run, every remote mirror upload in the trace is
preceded by a local write of the same path with the same bytes: a
payload is uploaded only after its local filesystem write completed. -/
theorem avC4_writeBeforeUpload (cfg : Config) (body : Oracle) (y m d : Nat) :
    uploadsCovered [] (mainRun cfg body y m d).2 = true := by
  by_cases hk : cfg.apiKey = ""
  · simp [mainRun, hk, uploadsCovered]
  · rcases hsl : symLoop cfg body (dayPath y m d) ⟨false, []⟩ cfg.symbols
      with ⟨st, res, evs⟩
    have h2 := symLoop_uploadsCovered cfg body (dayPath y m d) cfg.symbols
      ⟨false, []⟩ [] (fun _ => rfl) []
    rw [hsl] at h2
    simp only [mainRun, hk, if_neg hk, hsl]
    simpa using h2

theorem withRetryGo_sleeps (f : Nat → Except String Json) (w : Nat) :
    ∀ (r a : Nat), retrySleepsAre w (withRetryGo f w a r).2 = true := by
  intro r
  induction r with
  | zero => intro a; cases h : f a <;> simp [withRetryGo, h, retrySleepsAre]
  | succ r ih =>
    intro a
    cases h : f a with
    | ok v => simp [withRetryGo, h, retrySleepsAre]
    | error m =>
      by_cases hr : isRateMsg m
      · rcases hgo : withRetryGo f w (a + 1) r with ⟨res2, evs2⟩
        have h2 := ih (a + 1)
        rw [hgo] at h2
        simp [withRetryGo, h, hr, hgo, retrySleepsAre, h2]
      · simp [withRetryGo, h, hr, retrySleepsAre]

theorem sleepsAllAre_map_toEvent (w : Nat) (fnName sym : String) :
    ∀ (revs : List RetryEvent) (l : List Event),
      retrySleepsAre w revs = true →
      sleepsAllAre w (revs.map (toEvent fnName sym) ++ l) = sleepsAllAre w l := by
  intro revs
  induction revs with
  | nil => intro l _; simp
  | cons re rest ih =>
    intro l h
    cases re with
    | invoke =>
      rw [retrySleepsAre] at h
      simpa [toEvent, sleepsAllAre] using ih l h
    | sleep s =>
      rw [retrySleepsAre, Bool.and_eq_true] at h
      simp [toEvent, sleepsAllAre, h.1, ih l h.2]

theorem upload_to_gcs_sleeps (w : Nat) (cfg : Config) (fs : List (String × Json))
    (cm : Bool) (p k : String) (l : List Event) :
    sleepsAllAre w ((upload_to_gcs cfg fs cm p k).2 ++ l) = sleepsAllAre w l := by
  simp only [upload_to_gcs]
  split
  · simp
  · split <;> simp [sleepsAllAre]

/-- Every sleep the fundamentals loop emits — pacing sleeps and retry
backoff sleeps alike — has duration `SLEEP_SECONDS`. -/
theorem fundLoop_sleeps (cfg : Config) (body : Oracle) (day sym : String) :
    ∀ (fns : List String) (st : RunState) (tail : List Event),
      sleepsAllAre SLEEP_SECONDS ((fundLoop cfg body day sym st fns).2.2 ++ tail)
        = sleepsAllAre SLEEP_SECONDS tail := by
  intro fns
  induction fns with
  | nil => intro st tail; simp [fundLoop]
  | cons fn rest ih =>
    intro st tail
    rcases hwr : withRetry (callAttempt body fn sym) 1 SLEEP_SECONDS with ⟨res, revs⟩
    have hrs : retrySleepsAre SLEEP_SECONDS revs = true := by
      have h2 := withRetryGo_sleeps (callAttempt body fn sym) SLEEP_SECONDS 1 0
      rw [show withRetryGo (callAttempt body fn sym) SLEEP_SECONDS 0 1
          = withRetry (callAttempt body fn sym) 1 SLEEP_SECONDS from rfl, hwr] at h2
      exact h2
    cases res with
    | error m =>
      simp only [fundLoop, hwr]
      rw [sleepsAllAre_map_toEvent SLEEP_SECONDS fn sym revs tail hrs]
    | ok payload =>
      rcases hup : upload_to_gcs cfg
          ((cfg.localRawDir ++ "/" ++ relFund sym day fn, payload) :: st.fs)
          st.clientMade (cfg.localRawDir ++ "/" ++ relFund sym day fn)
          ("raw/" ++ relFund sym day fn) with ⟨made2, upEvs⟩
      rcases hfl : fundLoop cfg body day sym
          ⟨made2, (cfg.localRawDir ++ "/" ++ relFund sym day fn, payload) :: st.fs⟩ rest
        with ⟨st3, resRest, evsRest⟩
      have hupc := upload_to_gcs_sleeps SLEEP_SECONDS cfg
          ((cfg.localRawDir ++ "/" ++ relFund sym day fn, payload) :: st.fs)
          st.clientMade (cfg.localRawDir ++ "/" ++ relFund sym day fn)
          ("raw/" ++ relFund sym day fn)
          (Event.sleep SLEEP_SECONDS :: (evsRest ++ tail))
      rw [hup] at hupc
      have hih := ih ⟨made2,
        (cfg.localRawDir ++ "/" ++ relFund sym day fn, payload) :: st.fs⟩ tail
      rw [hfl] at hih
      simp only [fundLoop, hwr, hup, hfl]
      simp only [List.cons_append, List.append_assoc, List.nil_append]
      rw [sleepsAllAre_map_toEvent SLEEP_SECONDS fn sym revs _ hrs]
      simp only [sleepsAllAre]
      rw [hupc]
      simpa [sleepsAllAre] using hih

/-- Every sleep a run emits has duration `SLEEP_SECONDS`. -/
theorem symLoop_sleeps (cfg : Config) (body : Oracle) (day : String) :
    ∀ (syms : List String) (st : RunState) (tail : List Event),
      sleepsAllAre SLEEP_SECONDS ((symLoop cfg body day st syms).2.2 ++ tail)
        = sleepsAllAre SLEEP_SECONDS tail := by
  intro syms
  induction syms with
  | nil => intro st tail; simp [symLoop]
  | cons sym rest ih =>
    intro st tail
    rcases hwr : withRetry (callAttempt body "TIME_SERIES_DAILY_ADJUSTED" sym) 1 SLEEP_SECONDS
      with ⟨res, revs⟩
    have hrs : retrySleepsAre SLEEP_SECONDS revs = true := by
      have h2 := withRetryGo_sleeps (callAttempt body "TIME_SERIES_DAILY_ADJUSTED" sym)
        SLEEP_SECONDS 1 0
      rw [show withRetryGo (callAttempt body "TIME_SERIES_DAILY_ADJUSTED" sym)
          SLEEP_SECONDS 0 1
          = withRetry (callAttempt body "TIME_SERIES_DAILY_ADJUSTED" sym) 1 SLEEP_SECONDS
          from rfl, hwr] at h2
      exact h2
    cases res with
    | error m =>
      simp only [symLoop, hwr]
      rw [sleepsAllAre_map_toEvent SLEEP_SECONDS "TIME_SERIES_DAILY_ADJUSTED" sym revs tail hrs]
    | ok payload =>
      rcases hup : upload_to_gcs cfg
          ((cfg.localRawDir ++ "/" ++ relPrices sym day, payload) :: st.fs)
          st.clientMade (cfg.localRawDir ++ "/" ++ relPrices sym day)
          ("raw/" ++ relPrices sym day) with ⟨made2, upEvs⟩
      rcases hfl : fundLoop cfg body day sym
          ⟨made2, (cfg.localRawDir ++ "/" ++ relPrices sym day, payload) :: st.fs⟩ FUND_FUNCS
        with ⟨st3, fres, fevs⟩
      cases fres with
      | error m =>
        have hupc := upload_to_gcs_sleeps SLEEP_SECONDS cfg
            ((cfg.localRawDir ++ "/" ++ relPrices sym day, payload) :: st.fs)
            st.clientMade (cfg.localRawDir ++ "/" ++ relPrices sym day)
            ("raw/" ++ relPrices sym day) (fevs ++ tail)
        rw [hup] at hupc
        have hf := fundLoop_sleeps cfg body day sym FUND_FUNCS
          ⟨made2, (cfg.localRawDir ++ "/" ++ relPrices sym day, payload) :: st.fs⟩ tail
        rw [hfl] at hf
        simp only [symLoop, hwr, hup, hfl]
        simp only [List.cons_append, List.append_assoc, List.nil_append]
        rw [sleepsAllAre_map_toEvent SLEEP_SECONDS "TIME_SERIES_DAILY_ADJUSTED" sym revs _ hrs]
        simp only [sleepsAllAre]
        rw [hupc]
        simpa [sleepsAllAre] using hf
      | ok u =>
        rcases hsl : symLoop cfg body day st3 rest with ⟨st4, rres, revs2⟩
        have hupc := upload_to_gcs_sleeps SLEEP_SECONDS cfg
            ((cfg.localRawDir ++ "/" ++ relPrices sym day, payload) :: st.fs)
            st.clientMade (cfg.localRawDir ++ "/" ++ relPrices sym day)
            ("raw/" ++ relPrices sym day)
            (fevs ++ ((if rest.isEmpty then [] else [Event.sleep SLEEP_SECONDS])
              ++ (revs2 ++ tail)))
        rw [hup] at hupc
        have hf := fundLoop_sleeps cfg body day sym FUND_FUNCS
          ⟨made2, (cfg.localRawDir ++ "/" ++ relPrices sym day, payload) :: st.fs⟩
          ((if rest.isEmpty then [] else [Event.sleep SLEEP_SECONDS]) ++ (revs2 ++ tail))
        rw [hfl] at hf
        have hr := ih st3 tail
        rw [hsl] at hr
        simp only [symLoop, hwr, hup, hfl, hsl]
        simp only [List.cons_append, List.append_assoc, List.nil_append]
        rw [sleepsAllAre_map_toEvent SLEEP_SECONDS "TIME_SERIES_DAILY_ADJUSTED" sym revs _ hrs]
        simp only [sleepsAllAre]
        rw [hupc, hf]
        by_cases hrest : rest.isEmpty <;>
          simpa [hrest, sleepsAllAre] using hr

/-- Claim C7. The base pacing interval is computed once as
`⌈60 / REQUESTS_PER_MINUTE_SAFE⌉ + 1` seconds; with the configured quota
of 5 requests per minute it equals 13; and this same interval is the
duration of every sleep a run performs — the pacing sleeps and the retry
wrapper's default backoff alike. -/
theorem avC7_pacingInterval :
    SLEEP_SECONDS = 13
    ∧ SLEEP_SECONDS
        = (60 + REQUESTS_PER_MINUTE_SAFE - 1) / REQUESTS_PER_MINUTE_SAFE + 1
    ∧ ∀ (cfg : Config) (body : Oracle) (y m d : Nat),
        sleepsAllAre SLEEP_SECONDS (mainRun cfg body y m d).2 = true := by
  refine ⟨rfl, rfl, ?_⟩
  intro cfg body y m d
  by_cases hk : cfg.apiKey = ""
  · simp [mainRun, hk, sleepsAllAre]
  · rcases hsl : symLoop cfg body (dayPath y m d) ⟨false, []⟩ cfg.symbols
      with ⟨st, res, evs⟩
    have h2 := symLoop_sleeps cfg body (dayPath y m d) cfg.symbols ⟨false, []⟩ []
    rw [hsl] at h2
    simp only [mainRun, if_neg hk, hsl]
    simpa [sleepsAllAre] using h2

/-! ## Success-path trace shape (for claims C5 and C8) -/
/-- When the first attempt's body classifies as success, `_with_retry`
returns it immediately after a single invocation. -/
theorem withRetry_success (body : Oracle) (f s : String) (w : Nat)
    (h : classify (body f s 0) = Except.ok (body f s 0)) :
    withRetry (callAttempt body f s) 1 w
      = (Except.ok (body f s 0), [RetryEvent.invoke]) := by
  simp [withRetry, withRetryGo, callAttempt, h]

theorem writePathsOf_append (xs ys : List Event) :
    writePathsOf (xs ++ ys) = writePathsOf xs ++ writePathsOf ys := by
  induction xs with
  | nil => simp [writePathsOf]
  | cons e rest ih => cases e <;> simp [writePathsOf, ih]

theorem upload_to_gcs_writePaths (cfg : Config) (fs : List (String × Json))
    (cm : Bool) (p k : String) :
    writePathsOf (upload_to_gcs cfg fs cm p k).2 = [] := by
  simp only [upload_to_gcs]
  split
  · rfl
  · split <;> rfl

/-- On an all-success run, the fundamentals loop writes exactly the
fundamentals files, in `FUND_FUNCS` order, and returns success. -/
theorem fundLoop_writePaths (cfg : Config) (body : Oracle) (day sym : String)
    (hsucc : ∀ f s n, classify (body f s n) = Except.ok (body f s n)) :
    ∀ (fns : List String) (st : RunState),
      writePathsOf (fundLoop cfg body day sym st fns).2.2
        = fns.map (fun fn => cfg.localRawDir ++ "/" ++ relFund sym day fn)
      ∧ (fundLoop cfg body day sym st fns).2.1 = Except.ok () := by
  intro fns
  induction fns with
  | nil => intro st; simp [fundLoop, writePathsOf]
  | cons fn rest ih =>
    intro st
    have hwr := withRetry_success body fn sym SLEEP_SECONDS (hsucc fn sym 0)
    rcases hup : upload_to_gcs cfg
        ((cfg.localRawDir ++ "/" ++ relFund sym day fn, body fn sym 0) :: st.fs)
        st.clientMade (cfg.localRawDir ++ "/" ++ relFund sym day fn)
        ("raw/" ++ relFund sym day fn) with ⟨made2, upEvs⟩
    rcases hfl : fundLoop cfg body day sym
        ⟨made2, (cfg.localRawDir ++ "/" ++ relFund sym day fn, body fn sym 0) :: st.fs⟩ rest
      with ⟨st3, resRest, evsRest⟩
    have hih := ih ⟨made2,
      (cfg.localRawDir ++ "/" ++ relFund sym day fn, body fn sym 0) :: st.fs⟩
    rw [hfl] at hih
    have hupw := upload_to_gcs_writePaths cfg
        ((cfg.localRawDir ++ "/" ++ relFund sym day fn, body fn sym 0) :: st.fs)
        st.clientMade (cfg.localRawDir ++ "/" ++ relFund sym day fn)
        ("raw/" ++ relFund sym day fn)
    rw [hup] at hupw
    simp only [fundLoop, hwr, hup, hfl]
    constructor
    · simp [writePathsOf, toEvent, writePathsOf_append, hupw, hih.1]
    · exact hih.2

/-- On an all-success run, the symbol loop writes exactly the expected
prices and fundamentals files for each symbol in order, and returns
success. -/
theorem symLoop_writePaths (cfg : Config) (body : Oracle) (day : String)
    (hsucc : ∀ f s n, classify (body f s n) = Except.ok (body f s n)) :
    ∀ (syms : List String) (st : RunState),
      writePathsOf (symLoop cfg body day st syms).2.2
        = expectedWritePaths cfg.localRawDir day syms
      ∧ (symLoop cfg body day st syms).2.1 = Except.ok () := by
  intro syms
  induction syms with
  | nil => intro st; simp [symLoop, writePathsOf, expectedWritePaths]
  | cons sym rest ih =>
    intro st
    have hwr := withRetry_success body "TIME_SERIES_DAILY_ADJUSTED" sym SLEEP_SECONDS
      (hsucc "TIME_SERIES_DAILY_ADJUSTED" sym 0)
    rcases hup : upload_to_gcs cfg
        ((cfg.localRawDir ++ "/" ++ relPrices sym day,
            body "TIME_SERIES_DAILY_ADJUSTED" sym 0) :: st.fs)
        st.clientMade (cfg.localRawDir ++ "/" ++ relPrices sym day)
        ("raw/" ++ relPrices sym day) with ⟨made2, upEvs⟩
    rcases hfl : fundLoop cfg body day sym
        ⟨made2, (cfg.localRawDir ++ "/" ++ relPrices sym day,
            body "TIME_SERIES_DAILY_ADJUSTED" sym 0) :: st.fs⟩ FUND_FUNCS
      with ⟨st3, fres, fevs⟩
    have hf := fundLoop_writePaths cfg body day sym hsucc FUND_FUNCS
      ⟨made2, (cfg.localRawDir ++ "/" ++ relPrices sym day,
          body "TIME_SERIES_DAILY_ADJUSTED" sym 0) :: st.fs⟩
    rw [hfl] at hf
    rcases hsl : symLoop cfg body day st3 rest with ⟨st4, rres, revs2⟩
    have hr := ih st3
    rw [hsl] at hr
    have hupw := upload_to_gcs_writePaths cfg
        ((cfg.localRawDir ++ "/" ++ relPrices sym day,
            body "TIME_SERIES_DAILY_ADJUSTED" sym 0) :: st.fs)
        st.clientMade (cfg.localRawDir ++ "/" ++ relPrices sym day)
        ("raw/" ++ relPrices sym day)
    rw [hup] at hupw
    simp only [fundLoop, hwr, hup, hfl] at hf
    simp only [symLoop, hwr, hup, hfl, hf.2, hsl]
    constructor
    · by_cases hrest : rest.isEmpty <;>
        simp [hrest, writePathsOf, toEvent, writePathsOf_append, hupw, hf.1, hr.1,
          expectedWritePaths]
    · exact hr.2

/-- Claim C5. On every all-success run, the local storage paths are the
pure deterministic functions of symbol, category and run date given by
the partition layout: prices under
`{root}/prices/{S}/{yyyy}/{mm}/{dd}/daily_adjusted.json` and each
fundamentals category under
`{root}/fundamentals/{S}/{yyyy}/{mm}/{dd}/{category_lowercase}.json`;
at the spec's example inputs these are the five literal paths. -/
theorem avC5_storagePaths :
    (∀ (cfg : Config) (body : Oracle) (y m d : Nat),
        (∀ f s n, classify (body f s n) = Except.ok (body f s n)) →
        cfg.apiKey ≠ "" →
        writePathsOf (mainRun cfg body y m d).2
          = expectedWritePaths cfg.localRawDir (dayPath y m d) cfg.symbols)
    ∧ expectedWritePaths "/tmp/raw" (dayPath 2024 1 15) ["AAPL"]
        = ["/tmp/raw/prices/AAPL/2024/01/15/daily_adjusted.json",
           "/tmp/raw/fundamentals/AAPL/2024/01/15/overview.json",
           "/tmp/raw/fundamentals/AAPL/2024/01/15/income_statement.json",
           "/tmp/raw/fundamentals/AAPL/2024/01/15/balance_sheet.json",
           "/tmp/raw/fundamentals/AAPL/2024/01/15/cash_flow.json"] := by
  constructor
  · intro cfg body y m d hsucc hk
    rcases hsl : symLoop cfg body (dayPath y m d) ⟨false, []⟩ cfg.symbols
      with ⟨st, res, evs⟩
    have h2 := (symLoop_writePaths cfg body (dayPath y m d) hsucc cfg.symbols ⟨false, []⟩).1
    rw [hsl] at h2
    simp only [mainRun, if_neg hk, hsl]
    exact h2
  · decide

/-- Claim C5: witness at the spec's end-to-end scenario. -/
theorem avC5_storagePaths_witness :
    (∀ (f s : String) (n : Nat),
        classify ((fun (_ : String) (_ : String) (_ : Nat) => Json.obj []) f s n)
          = Except.ok ((fun (_ : String) (_ : String) (_ : Nat) => Json.obj []) f s n))
    ∧ (⟨"k", ["AAPL"], "/tmp/raw", false, ""⟩ : Config).apiKey ≠ ""
    ∧ writePathsOf (mainRun ⟨"k", ["AAPL"], "/tmp/raw", false, ""⟩
          (fun _ _ _ => Json.obj []) 2024 1 15).2
        = expectedWritePaths "/tmp/raw" (dayPath 2024 1 15) ["AAPL"] :=
  ⟨fun _ _ _ => rfl, by decide,
    avC5_storagePaths.1 ⟨"k", ["AAPL"], "/tmp/raw", false, ""⟩
      (fun _ _ _ => Json.obj []) 2024 1 15 (fun _ _ _ => rfl) (by decide)⟩

theorem callsAndSleeps_append (xs ys : List Event) :
    callsAndSleeps (xs ++ ys) = callsAndSleeps xs ++ callsAndSleeps ys := by
  simp [callsAndSleeps]

theorem callsAndSleeps_cons_apiCall (f s : String) (l : List Event) :
    callsAndSleeps (Event.apiCall f s :: l) = Event.apiCall f s :: callsAndSleeps l := by
  simp [callsAndSleeps, isApiCallEv]

theorem callsAndSleeps_cons_sleep (s : Nat) (l : List Event) :
    callsAndSleeps (Event.sleep s :: l) = Event.sleep s :: callsAndSleeps l := by
  simp [callsAndSleeps, isApiCallEv, isSleepEv]

theorem callsAndSleeps_cons_localWrite (p : String) (pl : Json) (l : List Event) :
    callsAndSleeps (Event.localWrite p pl :: l) = callsAndSleeps l := by
  simp [callsAndSleeps, isApiCallEv, isSleepEv]

theorem callsAndSleeps_upload_to_gcs (cfg : Config) (fs : List (String × Json))
    (cm : Bool) (p k : String) :
    callsAndSleeps (upload_to_gcs cfg fs cm p k).2 = [] := by
  simp only [upload_to_gcs]
  split
  · rfl
  · split <;> rfl

/-- With `retries = 1`, the retry wrapper's trace is either a single
invocation or invoke-sleep-invoke: it always begins and ends with an
invocation, and any backoff sleep sits strictly between two
invocations. -/
theorem withRetry_trace_shape (f : Nat → Except String Json) (w : Nat) :
    (withRetry f 1 w).2 = [RetryEvent.invoke]
    ∨ (withRetry f 1 w).2
        = [RetryEvent.invoke, RetryEvent.sleep w, RetryEvent.invoke] := by
  cases h0 : f 0 with
  | ok v => left; simp [withRetry, withRetryGo, h0]
  | error m =>
    by_cases hr : isRateMsg m
    · right
      cases h1 : f 1 with
      | ok v => simp [withRetry, withRetryGo, h0, hr, h1]
      | error m2 => simp [withRetry, withRetryGo, h0, hr, h1]
    · left; simp [withRetry, withRetryGo, h0, hr]

/-- Retry events render only to API calls and sleeps, so the
calls-and-sleeps projection keeps them all. -/
theorem callsAndSleeps_map_toEvent (fnName sym : String) (revs : List RetryEvent) :
    callsAndSleeps (revs.map (toEvent fnName sym)) = revs.map (toEvent fnName sym) := by
  induction revs with
  | nil => rfl
  | cons re rest ih =>
    cases re <;> simp [toEvent, callsAndSleeps_cons_apiCall, callsAndSleeps_cons_sleep, ih]

theorem adjacentCallsOk_sleep_left (s : Nat) (e : Event) :
    adjacentCallsOk (Event.sleep s) e = true := by
  cases e <;> rfl

theorem adjacentCallsOk_sleep_right (e : Event) (s : Nat) :
    adjacentCallsOk e (Event.sleep s) = true := by
  cases e <;> rfl

theorem pacedChain_sleep_cons (s : Nat) (l : List Event) (h : pacedChain l = true) :
    pacedChain (Event.sleep s :: l) = true := by
  cases l with
  | nil => rfl
  | cons e2 r => simp [pacedChain, adjacentCallsOk_sleep_left, h]

theorem pacedChain_cons_sleep_head (e : Event) (s : Nat) (l : List Event)
    (h : pacedChain (Event.sleep s :: l) = true) :
    pacedChain (e :: Event.sleep s :: l) = true := by
  simp [pacedChain, adjacentCallsOk_sleep_right, h]

theorem pacedChain_cons_of_pair (e x : Event) (l : List Event)
    (h1 : adjacentCallsOk e x = true) (h2 : pacedChain (x :: l) = true) :
    pacedChain (e :: x :: l) = true := by
  simp [pacedChain, h1, h2]

/-- A retry segment behaves, for pacing, like the single call event it
begins and ends with: if the chain is paced with the segment collapsed
to one `apiCall fn sym`, it is paced with the full segment (the backoff
sleep separates the segment's two invocations). -/
theorem pacedChain_retryCalls (body : Oracle) (fn sym : String) (l : List Event)
    (h : pacedChain (Event.apiCall fn sym :: l) = true) :
    pacedChain (retryCalls body fn sym ++ l) = true := by
  rcases withRetry_trace_shape (callAttempt body fn sym) SLEEP_SECONDS with hs | hs
  · simpa [retryCalls, hs] using h
  · have t1 := pacedChain_sleep_cons SLEEP_SECONDS _ h
    have t2 := pacedChain_cons_sleep_head (Event.apiCall fn sym) SLEEP_SECONDS _ t1
    simpa [retryCalls, hs] using t2

/-- As `pacedChain_retryCalls`, with one event in front of the segment:
the pair formed with the segment's first invocation must be allowed. -/
theorem pacedChain_cons_retryCalls (body : Oracle) (fn sym : String) (e : Event)
    (l : List Event) (hpair : adjacentCallsOk e (Event.apiCall fn sym) = true)
    (h : pacedChain (Event.apiCall fn sym :: l) = true) :
    pacedChain (e :: retryCalls body fn sym ++ l) = true := by
  rcases withRetry_trace_shape (callAttempt body fn sym) SLEEP_SECONDS with hs | hs
  · simpa [retryCalls, hs] using pacedChain_cons_of_pair e _ l hpair h
  · have t1 := pacedChain_sleep_cons SLEEP_SECONDS _ h
    have t2 := pacedChain_cons_sleep_head (Event.apiCall fn sym) SLEEP_SECONDS _ t1
    have t3 := pacedChain_cons_of_pair e _ _ hpair t2
    simpa [retryCalls, hs] using t3

/-- On an arbitrary run, the calls-and-sleeps subsequence of the
fundamentals loop, together with whatever a continuation contributes
when the loop succeeds, is exactly `fundCallsTail`. -/
theorem fundLoop_callsTail (cfg : Config) (body : Oracle) (day sym : String) :
    ∀ (fns : List String) (st : RunState) (k : List Event),
      callsAndSleeps (fundLoop cfg body day sym st fns).2.2
        ++ (match (fundLoop cfg body day sym st fns).2.1 with
            | Except.error _ => ([] : List Event)
            | Except.ok _ => k)
        = fundCallsTail body sym fns k := by
  intro fns
  induction fns with
  | nil => intro st k; simp [fundLoop, fundCallsTail, callsAndSleeps]
  | cons fn rest ih =>
    intro st k
    rcases hwr : withRetry (callAttempt body fn sym) 1 SLEEP_SECONDS with ⟨res, revs⟩
    cases res with
    | error m =>
      simp only [fundLoop, hwr, fundCallsTail, retryCalls]
      simp [hwr, callsAndSleeps_map_toEvent]
    | ok payload =>
      rcases hup : upload_to_gcs cfg
          ((cfg.localRawDir ++ "/" ++ relFund sym day fn, payload) :: st.fs)
          st.clientMade (cfg.localRawDir ++ "/" ++ relFund sym day fn)
          ("raw/" ++ relFund sym day fn) with ⟨made2, upEvs⟩
      rcases hfl : fundLoop cfg body day sym
          ⟨made2, (cfg.localRawDir ++ "/" ++ relFund sym day fn, payload) :: st.fs⟩ rest
        with ⟨st3, resRest, evsRest⟩
      have hih := ih ⟨made2,
        (cfg.localRawDir ++ "/" ++ relFund sym day fn, payload) :: st.fs⟩ k
      rw [hfl] at hih
      have hupc := callsAndSleeps_upload_to_gcs cfg
          ((cfg.localRawDir ++ "/" ++ relFund sym day fn, payload) :: st.fs)
          st.clientMade (cfg.localRawDir ++ "/" ++ relFund sym day fn)
          ("raw/" ++ relFund sym day fn)
      rw [hup] at hupc
      have hupc2 : callsAndSleeps upEvs = [] := hupc
      simp only [fundLoop, hwr, hup, hfl, fundCallsTail, retryCalls]
      simp only [List.cons_append, List.append_assoc] at hih ⊢
      simp [hwr, callsAndSleeps_append, callsAndSleeps_map_toEvent,
        callsAndSleeps_cons_localWrite, callsAndSleeps_cons_sleep, hupc2, hih]

/-- On an arbitrary run, the calls-and-sleeps subsequence of the whole
symbol loop is exactly `symCallsOf`. -/
theorem symLoop_callsOf (cfg : Config) (body : Oracle) (day : String) :
    ∀ (syms : List String) (st : RunState),
      callsAndSleeps (symLoop cfg body day st syms).2.2 = symCallsOf body syms := by
  intro syms
  induction syms with
  | nil => intro st; simp [symLoop, symCallsOf, callsAndSleeps]
  | cons sym rest ih =>
    intro st
    rcases hwr : withRetry (callAttempt body "TIME_SERIES_DAILY_ADJUSTED" sym) 1 SLEEP_SECONDS
      with ⟨res, revs⟩
    cases res with
    | error m =>
      simp only [symLoop, hwr, symCallsOf, retryCalls]
      simp [hwr, callsAndSleeps_map_toEvent]
    | ok payload =>
      rcases hup : upload_to_gcs cfg
          ((cfg.localRawDir ++ "/" ++ relPrices sym day, payload) :: st.fs)
          st.clientMade (cfg.localRawDir ++ "/" ++ relPrices sym day)
          ("raw/" ++ relPrices sym day) with ⟨made2, upEvs⟩
      rcases hfl : fundLoop cfg body day sym
          ⟨made2, (cfg.localRawDir ++ "/" ++ relPrices sym day, payload) :: st.fs⟩ FUND_FUNCS
        with ⟨st3, fres, fevs⟩
      have hupc := callsAndSleeps_upload_to_gcs cfg
          ((cfg.localRawDir ++ "/" ++ relPrices sym day, payload) :: st.fs)
          st.clientMade (cfg.localRawDir ++ "/" ++ relPrices sym day)
          ("raw/" ++ relPrices sym day)
      rw [hup] at hupc
      have hupc2 : callsAndSleeps upEvs = [] := hupc
      have hfc := fundLoop_callsTail cfg body day sym FUND_FUNCS
        ⟨made2, (cfg.localRawDir ++ "/" ++ relPrices sym day, payload) :: st.fs⟩
        ((if rest.isEmpty then [] else [Event.sleep SLEEP_SECONDS]) ++ symCallsOf body rest)
      rw [hfl] at hfc
      cases fres with
      | error m =>
        simp only at hfc
        simp only [symLoop, hwr, hup, hfl, symCallsOf, retryCalls]
        simp [hwr, callsAndSleeps_append, callsAndSleeps_map_toEvent,
          callsAndSleeps_cons_localWrite, hupc2]
        simpa using hfc
      | ok u =>
        rcases hsl : symLoop cfg body day st3 rest with ⟨st4, rres, revs2⟩
        have hr : callsAndSleeps revs2 = symCallsOf body rest := by
          have h2 := ih st3
          rwa [hsl] at h2
        simp only at hfc
        simp only [symLoop, hwr, hup, hfl, hsl, symCallsOf, retryCalls]
        simp only [List.cons_append, List.append_assoc]
        rw [← hfc]
        by_cases hrest : rest.isEmpty <;>
          simp [hrest, callsAndSleeps_append, callsAndSleeps_map_toEvent,
            callsAndSleeps_cons_localWrite, callsAndSleeps_cons_sleep, hupc2, hr]

/-- One-step unfolding of `fundCallsTail` on a cons. -/
theorem fundCallsTail_cons (body : Oracle) (sym fn : String) (rest : List String)
    (k : List Event) :
    fundCallsTail body sym (fn :: rest) k
      = retryCalls body fn sym
          ++ match (withRetry (callAttempt body fn sym) 1 SLEEP_SECONDS).1 with
             | Except.error _ => []
             | Except.ok _ =>
               Event.sleep SLEEP_SECONDS :: fundCallsTail body sym rest k := rfl

/-- The fundamentals shape is paced for every oracle: retry backoff
sleeps separate repeated invocations, a pacing sleep follows every
successful fundamentals fetch, a failing fetch ends the run, and the
continuation is only reached after the final pacing sleep. -/
theorem fundCallsTail_paced (body : Oracle) (sym : String) :
    ∀ (fns : List String) (k : List Event), pacedChain k = true →
      pacedChain (fundCallsTail body sym fns k) = true := by
  intro fns
  induction fns with
  | nil => intro k hk; simpa [fundCallsTail] using hk
  | cons fn rest ih =>
    intro k hk
    simp only [fundCallsTail]
    cases hres : (withRetry (callAttempt body fn sym) 1 SLEEP_SECONDS).1 with
    | error m =>
      simpa using pacedChain_retryCalls body fn sym [] rfl
    | ok v =>
      exact pacedChain_retryCalls body fn sym _
        (pacedChain_cons_sleep_head _ _ _
          (pacedChain_sleep_cons _ _ (ih k hk)))

/-- The whole-run shape is paced for every oracle: the only adjacent
API calls are a symbol's prices call and its OVERVIEW call. -/
theorem symCallsOf_paced (body : Oracle) :
    ∀ (syms : List String), pacedChain (symCallsOf body syms) = true := by
  intro syms
  induction syms with
  | nil => rfl
  | cons sym rest ih =>
    simp only [symCallsOf]
    cases hres : (withRetry (callAttempt body "TIME_SERIES_DAILY_ADJUSTED" sym)
        1 SLEEP_SECONDS).1 with
    | error m =>
      simpa using pacedChain_retryCalls body "TIME_SERIES_DAILY_ADJUSTED" sym [] rfl
    | ok v =>
      have hK : pacedChain ((if rest.isEmpty then [] else [Event.sleep SLEEP_SECONDS])
          ++ symCallsOf body rest) = true := by
        by_cases hrest : rest.isEmpty
        · simpa [hrest] using ih
        · simpa [hrest] using pacedChain_sleep_cons SLEEP_SECONDS _ ih
      apply pacedChain_retryCalls
      rw [show FUND_FUNCS
            = "OVERVIEW" :: ["INCOME_STATEMENT", "BALANCE_SHEET", "CASH_FLOW"] from rfl,
        fundCallsTail_cons]
      cases hres2 : (withRetry (callAttempt body "OVERVIEW" sym) 1 SLEEP_SECONDS).1 with
      | error m2 =>
        exact pacedChain_cons_retryCalls body "OVERVIEW" sym _ []
          (by simp [adjacentCallsOk, beq_self_eq_true]) rfl
      | ok v2 =>
        exact pacedChain_cons_retryCalls body "OVERVIEW" sym _ _
          (by simp [adjacentCallsOk, beq_self_eq_true])
          (pacedChain_cons_sleep_head _ _ _
            (pacedChain_sleep_cons _ _
              (fundCallsTail_paced body sym _ _ hK)))

/-- Claim C8, counterexample. The claim asserts that no two consecutive
API calls occur without an intervening pacing sleep. On a one-symbol
all-success run, the prices call and the first fundamentals (OVERVIEW)
call are consecutive API calls with no sleep between them (the code
sleeps only after each fundamentals call and between symbols,
src/ingestion/main.py lines 169-176). -/
theorem avC8_counterexample :
    noAdjacentCalls (callsAndSleeps
      (mainRun ⟨"k", ["AAPL"], "/tmp/raw", false, ""⟩
        (fun _ _ _ => Json.obj []) 2024 1 15).2) = false := by
  decide

/-- Claim C8, amended. In every run, a pacing sleep follows every
fundamentals API call and separates consecutive symbols, so every pair
of consecutive API calls has an intervening sleep EXCEPT the pair formed
by a symbol's prices call and that same symbol's first fundamentals
(OVERVIEW) call, which no delay separates. This holds for every oracle:
on success paths, on runs aborted by an unretried error, and across
retry attempts, whose backoff sleeps separate repeated invocations. -/
theorem avC8_pacedExceptPricesToOverview (cfg : Config) (body : Oracle) (y m d : Nat) :
    pacedChain (callsAndSleeps (mainRun cfg body y m d).2) = true := by
  by_cases hk : cfg.apiKey = ""
  · simp [mainRun, hk, callsAndSleeps, pacedChain]
  · rcases hsl : symLoop cfg body (dayPath y m d) ⟨false, []⟩ cfg.symbols
      with ⟨st, res, evs⟩
    have h2 := symLoop_callsOf cfg body (dayPath y m d) cfg.symbols ⟨false, []⟩
    rw [hsl] at h2
    simp only [mainRun, if_neg hk, hsl]
    rw [h2]
    exact symCallsOf_paced body cfg.symbols

/-! ## Claims C1, C2, C3, C10: classification and retry policy -/
/-- Claim C1, counterexample. The claim asserts that "Error Message" is
checked before "Note". The code (src/ingestion/main.py lines 68-73)
checks "Note" first: a response carrying both an "Error Message" key and
a throttle-style "Note" key classifies as rate-limited, not as the
claimed `ApiError("x")`. -/
theorem avC1_counterexample :
    classify (Json.obj [("Error Message", Json.str "x"),
        ("Note", Json.str "Thank you for using Alpha Vantage!")])
      = Except.error "Rate limited: Thank you for using Alpha Vantage!"
    ∧ classify (Json.obj [("Error Message", Json.str "x"),
        ("Note", Json.str "Thank you for using Alpha Vantage!")])
      ≠ Except.error "API error: x" := by
  refine ⟨rfl, ?_⟩
  intro h
  rw [show classify (Json.obj [("Error Message", Json.str "x"),
        ("Note", Json.str "Thank you for using Alpha Vantage!")])
      = Except.error "Rate limited: Thank you for using Alpha Vantage!" from rfl] at h
  injection h with h2
  exact absurd h2 (by decide)

/-- Claim C1, amended. For every decoded JSON object response, the API
client checks the throttle "Note" before the "Error Message" key: a
response whose "Note" contains the throttle marker "Thank you"
classifies as RateLimited carrying that note, even when an
"Error Message" key is also present. -/
theorem avC1_notePrecedence (fields : List (String × Json)) (note : Json)
    (hn : lookupStr fields "Note" = some note)
    (ht : strContains (Json.pyStr note) "Thank you" = true) :
    classify (Json.obj fields) = Except.error ("Rate limited: " ++ Json.pyStr note) := by
  simp [classify, hn, ht]

/-- Claim C1, amended: witness at the precedence test input (both keys
present). -/
theorem avC1_notePrecedence_witness :
    lookupStr [("Error Message", Json.str "x"),
        ("Note", Json.str "Thank you for using Alpha Vantage!")] "Note"
      = some (Json.str "Thank you for using Alpha Vantage!")
    ∧ strContains (Json.pyStr (Json.str "Thank you for using Alpha Vantage!")) "Thank you" = true
    ∧ classify (Json.obj [("Error Message", Json.str "x"),
        ("Note", Json.str "Thank you for using Alpha Vantage!")])
      = Except.error ("Rate limited: "
          ++ Json.pyStr (Json.str "Thank you for using Alpha Vantage!")) :=
  ⟨rfl, by decide,
    avC1_notePrecedence _ _ rfl (by decide)⟩

/-- Claim C2. Under the retry policy with `retries = 1`: a run whose
first invocation returns a rate-limited result sleeps exactly once for
the wait interval and re-invokes exactly once; if the re-invocation is
rate-limited again, that result propagates as the fatal outcome with no
further sleep or invocation; and a first-try success returns immediately
with a single invocation and no sleep. -/
theorem avC2_retryPolicy (fn : Nat → Except String Json) (wait : Nat) :
    (∀ v, fn 0 = Except.ok v →
      withRetry fn 1 wait = (Except.ok v, [RetryEvent.invoke]))
    ∧ (∀ d0, fn 0 = classify d0 → isRateLimitedSignal d0 = true →
        (∀ v, fn 1 = Except.ok v →
          withRetry fn 1 wait
            = (Except.ok v,
               [RetryEvent.invoke, RetryEvent.sleep wait, RetryEvent.invoke]))
        ∧ (∀ d1, fn 1 = classify d1 → isRateLimitedSignal d1 = true →
            withRetry fn 1 wait
              = (fn 1,
                 [RetryEvent.invoke, RetryEvent.sleep wait, RetryEvent.invoke]))) := by
  constructor
  · intro v h
    simp [withRetry, withRetryGo, h]
  · intro d0 h0 hs0
    obtain ⟨m0, hc0, hr0⟩ := classify_of_signal d0 hs0
    rw [hc0] at h0
    constructor
    · intro v h1
      simp [withRetry, withRetryGo, h0, hr0, h1]
    · intro d1 h1 hs1
      obtain ⟨m1, hc1, _⟩ := classify_of_signal d1 hs1
      rw [hc1] at h1
      simp [withRetry, withRetryGo, h0, hr0, h1, hc1]

/-- Claim C2: witness. A run whose two attempts both return the throttle
note sleeps once, re-invokes once, and propagates the second
rate-limited result as fatal. -/
theorem avC2_retryPolicy_witness :
    isRateLimitedSignal (Json.obj [("Note", Json.str "Thank you for using Alpha Vantage!")]) = true
    ∧ withRetry
        (fun _ => classify (Json.obj [("Note", Json.str "Thank you for using Alpha Vantage!")]))
        1 SLEEP_SECONDS
      = ((fun (_ : Nat) => classify (Json.obj [("Note", Json.str "Thank you for using Alpha Vantage!")])) 1,
         [RetryEvent.invoke, RetryEvent.sleep SLEEP_SECONDS, RetryEvent.invoke]) :=
  ⟨by decide,
    ((avC2_retryPolicy
        (fun _ => classify (Json.obj [("Note", Json.str "Thank you for using Alpha Vantage!")]))
        SLEEP_SECONDS).2
      (Json.obj [("Note", Json.str "Thank you for using Alpha Vantage!")]) rfl (by decide)).2
      (Json.obj [("Note", Json.str "Thank you for using Alpha Vantage!")]) rfl (by decide)⟩

/-- Claim C3, counterexample. The claim asserts that an ApiError result
is never retried "for every possible content of the error message
string". But `_with_retry` classifies by substring inspection of the
exception message: an "Error Message" whose value contains
"Rate limited" produces the exception message
"API error: Rate limited call frequency", which matches the rate
condition and IS retried (one sleep and one re-invocation occur). -/
theorem avC3_counterexample :
    classify (Json.obj [("Error Message", Json.str "Rate limited call frequency")])
      = Except.error "API error: Rate limited call frequency"
    ∧ withRetry
        (fun _ => classify (Json.obj [("Error Message", Json.str "Rate limited call frequency")]))
        1 SLEEP_SECONDS
      = (Except.error "API error: Rate limited call frequency",
         [RetryEvent.invoke, RetryEvent.sleep SLEEP_SECONDS, RetryEvent.invoke]) := by
  exact ⟨rfl, rfl⟩

/-- Claim C3, amended. An ApiError result whose raised message
`"API error: " ++ em` does not contain the substrings "Rate limited" or
"Please consider" is never retried: it propagates immediately as fatal
after a single invocation, with no sleep, for every retry budget. -/
theorem avC3_apiErrorNoRetry (fn : Nat → Except String Json) (retries wait : Nat)
    (em : String)
    (h0 : fn 0 = Except.error ("API error: " ++ em))
    (hnr : isRateMsg ("API error: " ++ em) = false) :
    withRetry fn retries wait
      = (Except.error ("API error: " ++ em), [RetryEvent.invoke]) := by
  cases retries with
  | zero => simp [withRetry, withRetryGo, h0]
  | succ r => simp [withRetry, withRetryGo, h0, hnr]

/-- Claim C3, amended: witness at a benign API error message. -/
theorem avC3_apiErrorNoRetry_witness :
    isRateMsg ("API error: " ++ "Invalid API call.") = false
    ∧ withRetry (fun _ => Except.error ("API error: " ++ "Invalid API call."))
        1 SLEEP_SECONDS
      = (Except.error ("API error: " ++ "Invalid API call."), [RetryEvent.invoke]) :=
  ⟨by decide,
    avC3_apiErrorNoRetry (fun _ => Except.error ("API error: " ++ "Invalid API call."))
      1 SLEEP_SECONDS "Invalid API call." rfl (by decide)⟩

/-- Claim C10. A successfully decoded body that is not a JSON object
skips `_get`'s classification entirely and is returned as a success:
neither the rate-limited branch nor the API-error branch can fire. -/
theorem avC10_nonObjectSuccess (d : Json) (h : Json.isObj d = false) :
    classify d = Except.ok d := by
  cases d with
  | obj fields => simp [Json.isObj] at h
  | null => rfl
  | bool b => rfl
  | num n => rfl
  | str s => rfl
  | arr xs => rfl

/-- Claim C10: witness at a JSON array body. -/
theorem avC10_nonObjectSuccess_witness :
    Json.isObj (Json.arr [Json.str "a"]) = false
    ∧ classify (Json.arr [Json.str "a"]) = Except.ok (Json.arr [Json.str "a"]) :=
  ⟨rfl, avC10_nonObjectSuccess (Json.arr [Json.str "a"]) rfl⟩
